import Mathlib

/-!
Verification development for the Gmail MIME message builder and the
Markdown-to-email-HTML renderer of the google-skill repository.

The definitions below are shallow embeddings of the TypeScript functions in
`src/scripts/gmail.ts` and the gmail CLI script (`createRawMessage`,
`sendMessage`, `loadAttachment`, `markdownToEmailHtml`).  JavaScript strings
are modelled as Lean `String` / `List Char`; byte buffers as `List Nat`
(each entry `< 256`); `Date.now()` as an explicit `ts : Nat` parameter;
the filesystem as a partial map `String → Option (List Nat)`.
-/

set_option maxHeartbeats 1000000
set_option maxRecDepth 100000

/-! ### Base64 / base64url (Buffer.toString("base64") and the
`replace` chain substituting the url alphabet and stripping padding) -/

/-- The standard base64 alphabet, as indexable list of characters. -/
def b64Chars : List Char :=
  "ABCDEFGHIJKLMNOPQRSTUVWXYZabcdefghijklmnopqrstuvwxyz0123456789+/".data

/-- Character for a 6-bit group. -/
def b64Char (n : Nat) : Char := b64Chars.getD n 'A'

/-- Index of a base64 character (inverse of `b64Char` on the alphabet). -/
def b64Val (c : Char) : Nat := b64Chars.findIdx (· == c)

/-- The character substitutions applied by the two global `replace` calls
turning `'+'` into `'-'` and `'/'` into `'_'`. -/
def substChar (c : Char) : Char :=
  if c = '+' then '-' else if c = '/' then '_' else c

/-- Reversing the character substitutions (`'-'` back to `'+'`,
`'_'` back to `'/'`). -/
def revSubstChar (c : Char) : Char :=
  if c = '-' then '+' else if c = '_' then '/' else c

/-- The final `replace` call of the encoder: strip all trailing `'='`
padding characters. -/
def stripTrailingEq (l : List Char) : List Char :=
  (l.reverse.dropWhile (· = '=')).reverse

/-- Plain padded base64 of a byte sequence, three bytes to four characters,
as produced by `Buffer.toString("base64")`. -/
def encodeChunks : List Nat → List Char
  | a :: b :: c :: rest =>
      b64Char (a / 4) :: b64Char ((a % 4) * 16 + b / 16) ::
      b64Char ((b % 16) * 4 + c / 64) :: b64Char (c % 64) :: encodeChunks rest
  | [a, b] =>
      [b64Char (a / 4), b64Char ((a % 4) * 16 + b / 16), b64Char ((b % 16) * 4), '=']
  | [a] => [b64Char (a / 4), b64Char ((a % 4) * 16), '=', '=']
  | [] => []

/-- Base64url characters of a byte sequence: substituted alphabet and no
padding.  This is the normal form of
`stripTrailingEq (map substChar (encodeChunks bs))`. -/
def encodeUrlChunks : List Nat → List Char
  | a :: b :: c :: rest =>
      substChar (b64Char (a / 4)) :: substChar (b64Char ((a % 4) * 16 + b / 16)) ::
      substChar (b64Char ((b % 16) * 4 + c / 64)) :: substChar (b64Char (c % 64)) ::
      encodeUrlChunks rest
  | [a, b] =>
      [substChar (b64Char (a / 4)), substChar (b64Char ((a % 4) * 16 + b / 16)),
       substChar (b64Char ((b % 16) * 4))]
  | [a] => [substChar (b64Char (a / 4)), substChar (b64Char ((a % 4) * 16))]
  | [] => []

/-- Base64 decoding of an unpadded character stream, four characters to
three bytes, with two- and three-character final groups. -/
def decodeChunks : List Char → List Nat
  | c1 :: c2 :: c3 :: c4 :: rest =>
      ((b64Val c1) * 4 + (b64Val c2) / 16) ::
      (((b64Val c2) % 16) * 16 + (b64Val c3) / 4) ::
      (((b64Val c3) % 4) * 64 + b64Val c4) :: decodeChunks rest
  | [c1, c2, c3] =>
      [(b64Val c1) * 4 + (b64Val c2) / 16, ((b64Val c2) % 16) * 16 + (b64Val c3) / 4]
  | [c1, c2] => [(b64Val c1) * 4 + (b64Val c2) / 16]
  | [_] => []
  | [] => []

/-- UTF-8 encoding of a single character, as a list of byte values. -/
def utf8Encode (c : Char) : List Nat :=
  let n := c.toNat
  if n < 128 then [n]
  else if n < 2048 then [192 + n / 64, 128 + n % 64]
  else if n < 65536 then [224 + n / 4096, 128 + (n / 64) % 64, 128 + n % 64]
  else [240 + n / 262144, 128 + (n / 4096) % 64, 128 + (n / 64) % 64, 128 + n % 64]

/-- The UTF-8 bytes of a string (`Buffer.from(message)`). -/
def strBytes (s : String) : List Nat := (s.data.map utf8Encode).flatten

/-- The full base64url encoder used at the end of `createRawMessage`:
padded base64 of the message bytes, then the two character substitutions,
then stripping of trailing padding. -/
def encodeBase64Url (s : String) : String :=
  ⟨stripTrailingEq ((encodeChunks (strBytes s)).map substChar)⟩

/-! ### The Gmail MIME envelope builder (`createRawMessage`, `sendMessage`,
`loadAttachment`, `getMimeType` from `src/scripts/gmail.ts`) -/

namespace Gmail

/-- The `Attachment` interface of `gmail.ts`: filename, raw bytes, MIME
type, optional inline flag and content id. -/
structure Attachment where
  filename : String
  content : List Nat
  mimeType : String
  isInline : Bool := false
  contentId : String := ""
  deriving DecidableEq

/-- The line separator `nl = "\r\n"` used throughout the builder. -/
def nl : String := "\r\n"

/-- Boundary for `multipart/mixed`, derived from the timestamp. -/
def mixedBoundary (ts : Nat) : String := "____mixed_" ++ Nat.repr ts ++ "____"

/-- Boundary for `multipart/alternative`, derived from the timestamp. -/
def altBoundary (ts : Nat) : String := "____alt_" ++ Nat.repr ts ++ "____"

/-- Boundary for `multipart/related`, derived from the timestamp. -/
def relatedBoundary (ts : Nat) : String := "____related_" ++ Nat.repr ts ++ "____"

/-- JavaScript `array.join(nl)`. -/
def joinNl : List String → String
  | [] => ""
  | [s] => s
  | s :: r :: rest => s ++ nl ++ joinNl (r :: rest)

/-- Chunking `/.{1,76}/g`, fuel-driven so that it reduces by kernel computation:
cut a character stream into chunks of at most 76.  With `fuel ≥ l.length`
(as used below) the fuel never runs out. -/
def chunk76Fuel : Nat → List Char → List (List Char)
  | _, [] => []
  | 0, _ => []
  | fuel + 1, l => (l.take 76) :: chunk76Fuel fuel (l.drop 76)

/-- Chunking `/.{1,76}/g`: cut a character stream into chunks of at most 76. -/
def chunk76 (l : List Char) : List (List Char) := chunk76Fuel l.length l

/-- Wrapping `content.toString("base64").match(/.{1,76}/g)?.join(nl) || ""`:
the base64 body of an attachment or inline image, wrapped at 76 columns. -/
def b64LinesOf (content : List Nat) : String :=
  joinNl ((chunk76 (encodeChunks content)).map (fun l => String.mk l))

def ctPlainLine : String := "Content-Type: text/plain; charset=\"UTF-8\""

def ctHtmlLine : String := "Content-Type: text/html; charset=\"UTF-8\""

def ctMixed (ts : Nat) : String :=
  "Content-Type: multipart/mixed; boundary=\"" ++ mixedBoundary ts ++ "\""

def ctAlt (ts : Nat) : String :=
  "Content-Type: multipart/alternative; boundary=\"" ++ altBoundary ts ++ "\""

def ctRelated (ts : Nat) : String :=
  "Content-Type: multipart/related; boundary=\"" ++ relatedBoundary ts ++ "\""

/-- The header block shared by all six shapes.  A falsy (`""`) `from`
value omits the `From:` line, like `from ? ... : null` plus
`filter(Boolean)` in the source.  `ct` is the top-level Content-Type. -/
def headerLines (toAddr subject fromF ct : String) : List String :=
  ["MIME-Version: 1.0", "To: " ++ toAddr] ++
  (if fromF = "" then [] else ["From: " ++ fromF]) ++
  ["Subject: " ++ subject, ct]

/-- A text part opened by boundary `b`. -/
def textPart (b body : String) : String :=
  joinNl ["--" ++ b, ctPlainLine, "", body]

/-- An HTML part opened by boundary `b`. -/
def htmlPart (b html : String) : String :=
  joinNl ["--" ++ b, ctHtmlLine, "", html]

/-- One attachment part opened by the mixed boundary `b`. -/
def attachmentPart (b : String) (att : Attachment) : String :=
  joinNl ["--" ++ b,
    "Content-Type: " ++ att.mimeType ++ "; name=\"" ++ att.filename ++ "\"",
    "Content-Disposition: attachment; filename=\"" ++ att.filename ++ "\"",
    "Content-Transfer-Encoding: base64",
    "",
    b64LinesOf att.content]

/-- One inline image part opened by the related boundary `b`, carrying the
`Content-ID` header built from the caller-supplied content id. -/
def inlineImagePart (b : String) (img : Attachment) : String :=
  joinNl ["--" ++ b,
    "Content-Type: " ++ img.mimeType ++ "; name=\"" ++ img.filename ++ "\"",
    "Content-Transfer-Encoding: base64",
    "Content-Disposition: inline; filename=\"" ++ img.filename ++ "\"",
    "Content-ID: <" ++ img.contentId ++ ">",
    "",
    b64LinesOf img.content]

/-- Joined `attachments.map(...).join(nl)`. -/
def attachmentParts (b : String) (atts : List Attachment) : String :=
  joinNl (atts.map (attachmentPart b))

/-- Joined `inlineImages.map(...).join(nl)`. -/
def inlineParts (b : String) (imgs : List Attachment) : String :=
  joinNl (imgs.map (inlineImagePart b))

/-- The plain-text-only message (shape 6), with no multipart wrapper.
The source applies `.filter(Boolean)` to the whole array, so besides a
falsy `from` it also drops the empty separator line and an empty body. -/
def plainMessage (toAddr subject body fromF : String) : String :=
  joinNl ((["MIME-Version: 1.0", "To: " ++ toAddr] ++
    (if fromF = "" then [] else ["From: " ++ fromF]) ++
    ["Subject: " ++ subject, ctPlainLine, "", body]).filter (fun s => s ≠ ""))

/-- The assembled (pre-encoding) message of `createRawMessage`.  The
branch structure mirrors the source's if/else chain on
`hasAttachments`, `hasHtml`, `hasInlineImages`; empty string stands for a
falsy (`undefined` or `""`) `from`/`html`, the empty list for a missing or
empty attachment/inline-image array. -/
def rawMimeMessage (toAddr subject body fromF html : String)
    (attachments inlineImages : List Attachment) (ts : Nat) : String :=
  if attachments ≠ [] ∧ html ≠ "" ∧ inlineImages ≠ [] then
    joinNl (headerLines toAddr subject fromF (ctMixed ts)) ++ nl ++ nl ++
    joinNl ["--" ++ mixedBoundary ts, ctRelated ts] ++ nl ++ nl ++
    htmlPart (relatedBoundary ts) html ++ nl ++
    inlineParts (relatedBoundary ts) inlineImages ++ nl ++
    ("--" ++ relatedBoundary ts ++ "--") ++ nl ++
    attachmentParts (mixedBoundary ts) attachments ++ nl ++
    ("--" ++ mixedBoundary ts ++ "--")
  else if attachments ≠ [] ∧ html ≠ "" then
    joinNl (headerLines toAddr subject fromF (ctMixed ts)) ++ nl ++ nl ++
    joinNl ["--" ++ mixedBoundary ts, ctAlt ts] ++ nl ++ nl ++
    textPart (altBoundary ts) body ++ nl ++
    htmlPart (altBoundary ts) html ++ nl ++
    ("--" ++ altBoundary ts ++ "--") ++ nl ++
    attachmentParts (mixedBoundary ts) attachments ++ nl ++
    ("--" ++ mixedBoundary ts ++ "--")
  else if attachments ≠ [] then
    joinNl (headerLines toAddr subject fromF (ctMixed ts)) ++ nl ++ nl ++
    textPart (mixedBoundary ts) body ++ nl ++
    attachmentParts (mixedBoundary ts) attachments ++ nl ++
    ("--" ++ mixedBoundary ts ++ "--")
  else if html ≠ "" ∧ inlineImages ≠ [] then
    joinNl (headerLines toAddr subject fromF (ctRelated ts)) ++ nl ++ nl ++
    htmlPart (relatedBoundary ts) html ++ nl ++
    inlineParts (relatedBoundary ts) inlineImages ++ nl ++
    ("--" ++ relatedBoundary ts ++ "--")
  else if html ≠ "" then
    joinNl (headerLines toAddr subject fromF (ctAlt ts)) ++ nl ++ nl ++
    textPart (altBoundary ts) body ++ nl ++
    htmlPart (altBoundary ts) html ++ nl ++
    ("--" ++ altBoundary ts ++ "--")
  else
    plainMessage toAddr subject body fromF

/-- Function `createRawMessage`: the assembled message, base64url-encoded. -/
def createRawMessage (toAddr subject body fromF html : String)
    (attachments inlineImages : List Attachment) (ts : Nat) : String :=
  encodeBase64Url (rawMimeMessage toAddr subject body fromF html attachments inlineImages ts)

/-- Function `path.basename`: the last `/`-separated component. -/
def basename (p : String) : String := (p.splitOn "/").getLastD p

/-- Function `path.extname(..).toLowerCase()`: the suffix of the basename starting
at its last dot (empty when the basename has no dot or only a leading
dot). -/
def extname (p : String) : String :=
  let b := (basename p).toLower
  match (b.splitOn ".") with
  | [] => ""
  | [_] => ""
  | _ :: parts => if b.startsWith "." ∧ parts.length = 1 then "" else "." ++ parts.getLastD ""

/-- The fixed extension-to-MIME-type lookup table of `getMimeType`. -/
def mimeTypesTable : List (String × String) :=
  [(".pdf", "application/pdf"),
   (".doc", "application/msword"),
   (".docx", "application/vnd.openxmlformats-officedocument.wordprocessingml.document"),
   (".xls", "application/vnd.ms-excel"),
   (".xlsx", "application/vnd.openxmlformats-officedocument.spreadsheetml.sheet"),
   (".png", "image/png"),
   (".jpg", "image/jpeg"),
   (".jpeg", "image/jpeg"),
   (".gif", "image/gif"),
   (".txt", "text/plain"),
   (".html", "text/html"),
   (".csv", "text/csv"),
   (".json", "application/json"),
   (".zip", "application/zip")]

/-- Function `getMimeType`: table lookup with `application/octet-stream` default. -/
def getMimeType (filePath : String) : String :=
  match mimeTypesTable.find? (fun e => e.1 = extname filePath) with
  | some e => e.2
  | none => "application/octet-stream"

/-- The filesystem collaborator: a partial map from paths to byte
contents.  `none` models an unreadable / missing file. -/
def Fs : Type := String → Option (List Nat)

/-- Node's ENOENT rejection text, naming the offending path. -/
def enoentMsg (p : String) : String :=
  "ENOENT: no such file or directory, open '" ++ p ++ "'"

/-- Function `fs.readFile`: the file's bytes, or a rejection whose message names
the offending path (Node's ENOENT error text). -/
def readFile (fs : Fs) (p : String) : Except String (List Nat) :=
  match fs p with
  | some c => .ok c
  | none => .error (enoentMsg p)

/-- Function `loadAttachment`: read the file and build an `Attachment` record. -/
def loadAttachment (fs : Fs) (filePath : String) : Except String Attachment := do
  let content ← readFile fs filePath
  pure ⟨basename filePath, content, getMimeType filePath, false, ""⟩

/-- Function `loadInlineImage`: like `loadAttachment` plus inline flag and cid. -/
def loadInlineImage (fs : Fs) (filePath contentId : String) :
    Except String Attachment := do
  let content ← readFile fs filePath
  pure ⟨basename filePath, content, getMimeType filePath, true, contentId⟩

/-- Loading `Promise.all(paths.map(loadAttachment))`: all files are read, or the
whole operation fails with the first read error. -/
def loadAll (fs : Fs) : List String → Except String (List Attachment)
  | [] => .ok []
  | p :: rest => do
      let a ← loadAttachment fs p
      let as ← loadAll fs rest
      pure (a :: as)

/-- Loading `Promise.all` over the inline image path/cid pairs. -/
def loadAllInline (fs : Fs) : List (String × String) → Except String (List Attachment)
  | [] => .ok []
  | pc :: rest => do
      let a ← loadInlineImage fs pc.1 pc.2
      let as ← loadAllInline fs rest
      pure (a :: as)

/-- Function `sendMessage` (and equally `createDraft`): load every attachment and
inline image, then assemble and encode the envelope.  The returned string
is the `raw` payload handed to the Gmail API; an error is the first read
failure, and no envelope is produced in that case. -/
def sendMessage (fs : Fs) (toAddr subject body html : String)
    (attachmentPaths : List String) (inlineImagePaths : List (String × String))
    (ts : Nat) : Except String String := do
  let attachments ← loadAll fs attachmentPaths
  let inlineImages ← loadAllInline fs inlineImagePaths
  pure (createRawMessage toAddr subject body "" html attachments inlineImages ts)

end Gmail


/-! ### Substring machinery for reasoning about the assembled messages -/

/-- Predicate: `p` occurs as a contiguous substring of `s`. -/
def substr (p s : String) : Prop := p.data <:+: s.data

namespace Gmail

/-- Characters that can occur in a boundary string: underscore, a decimal
digit of the timestamp, or a lowercase letter of the fixed label. -/
def isBoundaryChar (c : Char) : Bool := c == '_' || c.isDigit || c.isLower


end Gmail

/-- Witness filesystem: one readable file `a.txt`, everything else
unreadable. -/
def fsW : Gmail.Fs := fun q => if q = "a.txt" then some [104, 105] else none

/-- Occurrence test: `p` occurs as a contiguous sublist of `l`
(computable companion of `substr`). -/
def hasSub (p : List Char) : List Char → Bool
  | [] => p.isEmpty
  | c :: rest => p.isPrefixOf (c :: rest) || hasSub p rest

/-- An input string that contains none of the three candidate boundary
strings of timestamp `ts`. -/
def BoundaryFree (ts : Nat) (s : String) : Prop :=
  ∀ b ∈ [Gmail.mixedBoundary ts, Gmail.altBoundary ts, Gmail.relatedBoundary ts],
    ¬ substr b s

/-- Witness inline image. -/
def imgW : Gmail.Attachment := ⟨"i.png", [1, 2, 3], "image/png", true, "img1"⟩

/-- Witness attachment. -/
def attW : Gmail.Attachment := ⟨"a.txt", [104, 105], "text/plain", false, ""⟩

/-- Split a CRLF-delimited byte stream into its lines. -/
def splitCRLF : List Nat → List (List Nat)
  | [] => [[]]
  | 13 :: 10 :: rest => [] :: splitCRLF rest
  | x :: rest =>
    match splitCRLF rest with
    | [] => [[x]]
    | l :: ls => (x :: l) :: ls

/-- Number of lines of a CRLF-delimited byte stream equal to `target`. -/
def countLine (target bs : List Nat) : Nat := (splitCRLF bs).count target

/-- The base64url-decoded bytes of the shape-2 witness message: one
attachment, an HTML body, no inline images, timestamp 0. -/
def c4decoded : List Nat :=
  decodeChunks
    ((Gmail.createRawMessage "a@b.c" "s" "b" "" "<p>x</p>" [attW] [] 0).data.map
      revSubstChar)

/-! ### The Markdown-to-email-HTML renderer (`markdownToEmailHtml` from the
gmail CLI script).  The JavaScript implementation is a fixed sequence of
global regex-replace passes over the document string; each pass is
embedded below as a scanner with the same match-and-continue semantics.
Scanners take a fuel argument (always instantiated to more than the input
length) so that they reduce by kernel computation. -/

namespace Md

/-- The two style profiles of the renderer. -/
inductive EmailStyle | client | labs
deriving DecidableEq

/-- Word characters `\w` of the code-fence language tag. -/
def isWordChar (c : Char) : Bool := c.isAlphanum || c == '_'

/-- JavaScript `String.trim`. -/
def listTrim (l : List Char) : List Char :=
  ((l.dropWhile (·.isWhitespace)).reverse.dropWhile (·.isWhitespace)).reverse

/-- Split on a separator character, keeping empty fields (JavaScript
`String.split`); `cur` accumulates the current field in reverse. -/
def splitOnAux (sep : Char) (cur : List Char) : List Char → List (List Char)
  | [] => [cur.reverse]
  | c :: rest =>
    if c = sep then cur.reverse :: splitOnAux sep [] rest
    else splitOnAux sep (c :: cur) rest

/-- Split on a separator character, keeping empty fields (JavaScript
`String.split`). -/
def splitOn (sep : Char) (l : List Char) : List (List Char) := splitOnAux sep [] l

/-- The lines of a document (split on `'\n'`). -/
def splitLines (l : List Char) : List (List Char) := splitOn '\n' l

/-- Join lines with `'\n'` (inverse of `splitLines`). -/
def joinLines : List (List Char) → List Char
  | [] => []
  | [l] => l
  | l :: r :: rest => l ++ '\n' :: joinLines (r :: rest)

/-- Split at the first occurrence of character `c`: the part before and
the part after it. -/
def breakOnChar (c : Char) : List Char → Option (List Char × List Char)
  | [] => none
  | x :: rest =>
    if x = c then some ([], rest)
    else (breakOnChar c rest).map (fun pr => (x :: pr.1, pr.2))

/-- Split at the first occurrence of the two-character pattern `a b`. -/
def breakOn2 (a b : Char) : List Char → Option (List Char × List Char)
  | x :: y :: rest =>
    if x = a ∧ y = b then some ([], rest)
    else (breakOn2 a b (y :: rest)).map (fun pr => (x :: pr.1, pr.2))
  | _ => none

/-- Split at the first occurrence of the three-character pattern `a b c`. -/
def breakOn3 (a b c : Char) : List Char → Option (List Char × List Char)
  | x :: y :: z :: rest =>
    if x = a ∧ y = b ∧ z = c then some ([], rest)
    else (breakOn3 a b c (y :: z :: rest)).map (fun pr => (x :: pr.1, pr.2))
  | _ => none

/-- One global one-character `replace` call. -/
def replaceAllChar (c : Char) (r : List Char) : List Char → List Char
  | [] => []
  | x :: rest =>
    if x = c then r ++ replaceAllChar c r rest else x :: replaceAllChar c r rest

/-- The five sequential escape replacements applied to fenced-code
content: `&`, `<`, `>`, `"`, `'`. -/
def escapeHtml (l : List Char) : List Char :=
  replaceAllChar '\x27' "&#039;".data
    (replaceAllChar '"' "&quot;".data
      (replaceAllChar '>' "&gt;".data
        (replaceAllChar '<' "&lt;".data
          (replaceAllChar '&' "&amp;".data l))))

/-- The presentation-attribute strings of the two style profiles,
copied from the source's `styles` record. -/
def styleH1 : EmailStyle → List Char
  | .labs => "style=\"font-size: 36px; font-weight: 900; letter-spacing: -0.02em; line-height: 1.0; color: #000000; margin: 0 0 20px 0; padding-bottom: 20px; border-bottom: 2px solid #000000;\"".data
  | .client => "style=\"font-size: 32px; font-weight: 700; letter-spacing: -0.045em; line-height: 1.1; color: #000000; margin: 0 0 20px 0; padding-bottom: 20px; border-bottom: 2px solid #0e3b46;\"".data

def styleH2 : EmailStyle → List Char
  | .labs => "style=\"font-size: 22px; font-weight: 900; text-transform: uppercase; letter-spacing: 0.05em; line-height: 1.2; color: #000000; margin: 32px 0 16px 0; padding-bottom: 8px; border-bottom: 1px solid #000000;\"".data
  | .client => "style=\"font-size: 24px; font-weight: 700; letter-spacing: -0.03em; line-height: 1.2; color: #000000; margin: 32px 0 16px 0; padding-bottom: 8px; border-bottom: 1px solid #d4d3cf;\"".data

def styleH3 : EmailStyle → List Char
  | .labs => "style=\"font-size: 18px; font-weight: 700; line-height: 1.3; color: #000000; margin: 24px 0 12px 0;\"".data
  | .client => "style=\"font-size: 18px; font-weight: 700; letter-spacing: -0.02em; line-height: 1.3; color: #000000; margin: 24px 0 12px 0;\"".data

def styleH4 : List Char :=
  "style=\"font-size: 16px; font-weight: 700; color: #000000; margin: 20px 0 8px 0;\"".data

def styleP : List Char :=
  "style=\"font-size: 16px; line-height: 1.6; color: #000000; margin: 0 0 16px 0;\"".data

def styleA : EmailStyle → List Char
  | .labs => "style=\"color: #0055aa; text-decoration: underline;\"".data
  | .client => "style=\"color: #0e3b46; text-decoration: none; border-bottom: 1px solid #0e3b46;\"".data

def styleBq : EmailStyle → List Char
  | .labs => "style=\"margin: 20px 0; padding: 16px; background: white; border: 1px solid #000000; border-left: 4px solid #0055aa; color: #000000;\"".data
  | .client => "style=\"margin: 20px 0; padding: 16px 20px; border-left: 3px solid #0e3b46; background: rgba(14, 59, 70, 0.03); font-style: italic; color: #000000;\"".data

def styleCode : EmailStyle → List Char
  | .labs => "style=\"font-family: \x27Courier New\x27, monospace; font-size: 14px; background: #e6e4dc; padding: 2px 6px; border: 1px solid rgba(0, 0, 0, 0.2); color: #000000;\"".data
  | .client => "style=\"font-family: \x27Courier New\x27, monospace; font-size: 14px; background: rgba(14, 59, 70, 0.06); padding: 2px 6px; border-radius: 3px; color: #000000;\"".data

def stylePre : List Char :=
  "style=\"margin: 20px 0; padding: 20px; background: #f4f4f4; color: #1a1a1a; overflow-x: auto; font-family: \x27Courier New\x27, monospace; font-size: 14px; line-height: 1.5; border-radius: 6px; border: 1px solid #d0d0d0;\"".data

def styleHr : EmailStyle → List Char
  | .labs => "style=\"margin: 32px 0; border: none; border-top: 2px solid #000000;\"".data
  | .client => "style=\"margin: 32px 0; border: none; height: 1px; background: #d4d3cf;\"".data

def styleUl : List Char := "style=\"margin: 0 0 16px 0; padding-left: 24px;\"".data

def styleOl : List Char := "style=\"margin: 0 0 16px 0; padding-left: 24px;\"".data

def styleLi : List Char :=
  "style=\"font-size: 16px; line-height: 1.6; color: #000000; margin-bottom: 8px;\"".data

def styleTable : List Char :=
  "style=\"width: 100%; margin: 20px 0; border-collapse: collapse; font-size: 15px;\"".data

def styleTh : EmailStyle → List Char
  | .labs => "style=\"padding: 10px 12px; text-align: left; border: 1px solid #000000; font-family: \x27Courier New\x27, monospace; font-size: 11px; font-weight: 700; text-transform: uppercase; letter-spacing: 0.1em; background: #000000; color: #ffffff;\"".data
  | .client => "style=\"padding: 10px 12px; text-align: left; border-bottom: 1px solid #d4d3cf; font-family: \x27Courier New\x27, monospace; font-size: 12px; font-weight: 500; text-transform: uppercase; letter-spacing: 0.12em; color: #000000; background: rgba(14, 59, 70, 0.03);\"".data

def styleTd : EmailStyle → List Char
  | .labs => "style=\"padding: 10px 12px; text-align: left; border: 1px solid #000000; font-size: 15px; color: #000000;\"".data
  | .client => "style=\"padding: 10px 12px; text-align: left; border-bottom: 1px solid #d4d3cf; font-size: 15px; color: #000000;\"".data

def styleStrong : List Char := "style=\"font-weight: 700;\"".data

def styleEm : List Char := "style=\"font-style: italic;\"".data

end Md

namespace Md

/-- Pass 1: fenced code blocks.  A match is three backticks, a `\w*`
language tag, a newline, then the (lazy) shortest content up to the next
three backticks; the trimmed content is HTML-escaped and wrapped in
`<pre ...><code>`.  At a position with no match the scanner moves one
character, like the regex engine. -/
def codeBlockPass : Nat → List Char → List Char
  | 0, l => l
  | _, [] => []
  | fuel + 1, '`' :: '`' :: '`' :: rest =>
    let lang := rest.takeWhile isWordChar
    match rest.drop lang.length with
    | '\n' :: rest' =>
      match breakOn3 '`' '`' '`' rest' with
      | some (code, post) =>
          "<pre ".data ++ stylePre ++ "><code>".data ++ escapeHtml (listTrim code) ++
          "</code></pre>".data ++ codeBlockPass fuel post
      | none => '`' :: codeBlockPass fuel ('`' :: '`' :: rest)
    | _ => '`' :: codeBlockPass fuel ('`' :: '`' :: rest)
  | fuel + 1, c :: rest => c :: codeBlockPass fuel rest

/-- Pass: bold.  `\*\*(.+?)\*\*`: lazy one-line content between double
asterisks. -/
def boldPass (st : EmailStyle) : Nat → List Char → List Char
  | 0, l => l
  | _, [] => []
  | fuel + 1, '*' :: '*' :: rest =>
    match rest with
    | r0 :: rtail =>
      match breakOn2 '*' '*' rtail with
      | some (pre, post) =>
          let content := r0 :: pre
          if content.contains '\n' then '*' :: boldPass st fuel ('*' :: rest)
          else
            "<strong ".data ++ styleStrong ++ '>' :: content ++ "</strong>".data ++
            boldPass st fuel post
      | none => '*' :: boldPass st fuel ('*' :: rest)
    | [] => '*' :: boldPass st fuel ('*' :: rest)
  | fuel + 1, c :: rest => c :: boldPass st fuel rest

/-- Pass: italic.  `\*([^*]+?)\*`: shortest nonempty asterisk-free
content between single asterisks. -/
def italicPass (st : EmailStyle) : Nat → List Char → List Char
  | 0, l => l
  | _, [] => []
  | fuel + 1, '*' :: rest =>
    match rest with
    | r0 :: _ =>
      if r0 = '*' then '*' :: italicPass st fuel rest
      else
        match breakOnChar '*' rest with
        | some (content, post) =>
            "<em ".data ++ styleEm ++ '>' :: content ++ "</em>".data ++
            italicPass st fuel post
        | none => '*' :: italicPass st fuel rest
    | [] => ['*']
  | fuel + 1, c :: rest => c :: italicPass st fuel rest

/-- Pass: links.  `\[([^\]]+)\]\(([^)]+)\)`. -/
def linkPass (st : EmailStyle) : Nat → List Char → List Char
  | 0, l => l
  | _, [] => []
  | fuel + 1, '[' :: rest =>
    (match breakOnChar ']' rest with
    | some (text, after1) =>
      if text = [] then '[' :: linkPass st fuel rest
      else
        match after1 with
        | '(' :: after2 =>
          (match breakOnChar ')' after2 with
          | some (url, post) =>
            if url = [] then '[' :: linkPass st fuel rest
            else
              "<a href=\"".data ++ url ++ "\" ".data ++ styleA st ++ '>' :: text ++
              "</a>".data ++ linkPass st fuel post
          | none => '[' :: linkPass st fuel rest)
        | _ => '[' :: linkPass st fuel rest
    | none => '[' :: linkPass st fuel rest)
  | fuel + 1, c :: rest => c :: linkPass st fuel rest

/-- Pass: inline code spans.  A backtick-delimited nonempty span. -/
def codeSpanPass (st : EmailStyle) : Nat → List Char → List Char
  | 0, l => l
  | _, [] => []
  | fuel + 1, '`' :: rest =>
    (match breakOnChar '`' rest with
    | some (content, post) =>
      if content = [] then '`' :: codeSpanPass st fuel rest
      else
        "<code ".data ++ styleCode st ++ '>' :: content ++ "</code>".data ++
        codeSpanPass st fuel post
    | none => '`' :: codeSpanPass st fuel rest)
  | fuel + 1, c :: rest => c :: codeSpanPass st fuel rest

/-- Heading line replacements `^#### (.+)$` … `^# (.+)$`, one level. -/
def h4Line (st : EmailStyle) (l : List Char) : List Char :=
  if "#### ".data.isPrefixOf l ∧ 5 < l.length then
    "<h4 ".data ++ styleH4 ++ '>' :: l.drop 5 ++ "</h4>".data
  else l

def h3Line (st : EmailStyle) (l : List Char) : List Char :=
  if "### ".data.isPrefixOf l ∧ 4 < l.length then
    "<h3 ".data ++ styleH3 st ++ '>' :: l.drop 4 ++ "</h3>".data
  else l

def h2Line (st : EmailStyle) (l : List Char) : List Char :=
  if "## ".data.isPrefixOf l ∧ 3 < l.length then
    "<h2 ".data ++ styleH2 st ++ '>' :: l.drop 3 ++ "</h2>".data
  else l

def h1Line (st : EmailStyle) (l : List Char) : List Char :=
  if "# ".data.isPrefixOf l ∧ 2 < l.length then
    "<h1 ".data ++ styleH1 st ++ '>' :: l.drop 2 ++ "</h1>".data
  else l

/-- Horizontal rule `^---$`. -/
def hrLine (st : EmailStyle) (l : List Char) : List Char :=
  if l = "---".data then "<hr ".data ++ styleHr st ++ ">".data else l

/-- Apply a per-line function over the document's `'\n'`-lines. -/
def mapLines (f : List Char → List Char) (doc : List Char) : List Char :=
  joinLines ((splitLines doc).map f)

/-- The maximal leading run of lines satisfying `p`, and the remaining
lines. -/
def collectRun (p : List Char → Bool) : List (List Char) → (List (List Char) × List (List Char))
  | [] => ([], [])
  | l :: rest =>
    if p l then
      let pr := collectRun p rest
      (l :: pr.1, pr.2)
    else ([], l :: rest)

/-- A run-of-lines regex pass (`(^…$\n?)+` with `gm`): each maximal run of
lines satisfying `p` is handed to `render`; `some r` replaces the matched
text (including its consumed trailing newline, hence the merge with the
following line), `none` keeps the run unchanged. -/
def runPassFuel (p : List Char → Bool) (render : List (List Char) → Option (List Char)) :
    Nat → List (List Char) → List (List Char)
  | 0, ls => ls
  | _, [] => []
  | fuel + 1, l :: rest =>
    if p l then
      let pr := collectRun p (l :: rest)
      match render pr.1 with
      | some r =>
        match pr.2 with
        | [] => [r]
        | next :: rest' => (r ++ next) :: runPassFuel p render fuel rest'
      | none => pr.1 ++ runPassFuel p render fuel pr.2
    else l :: runPassFuel p render fuel rest

/-- A run pass over a whole document. -/
def runPassDoc (p : List Char → Bool) (render : List (List Char) → Option (List Char))
    (doc : List Char) : List Char :=
  joinLines (runPassFuel p render ((splitLines doc).length + 1) (splitLines doc))

/-- Pattern `^\|.+\|$`: a candidate table line. -/
def isTableLine (l : List Char) : Bool :=
  3 ≤ l.length && l.headD ' ' == '|' && l.getLastD ' ' == '|'

/-- Pattern `^>.*$`: a blockquote line. -/
def isBqLine (l : List Char) : Bool := l.headD ' ' == '>'

/-- Pattern `^- .+$`: an unordered-list line. -/
def isUlLine (l : List Char) : Bool := "- ".data.isPrefixOf l && 3 ≤ l.length

/-- Pattern `^\d+\. .+$`: an ordered-list line. -/
def isOlLine (l : List Char) : Bool :=
  let ds := l.takeWhile (·.isDigit)
  !ds.isEmpty && ". ".data.isPrefixOf (l.drop ds.length) && ds.length + 2 < l.length

/-- Row parsing `row.split("|").slice(1, -1).map(trim)`. -/
def parseRow (row : List Char) : List (List Char) :=
  (((splitOn '|' row).drop 1).dropLast).map listTrim

/-- Pattern `^\|[\s:-]+\|$`: the separator-row test of the table pass (note that
the character class does not allow the inner `|` of a multi-column
separator). -/
def isSeparatorRow (row : List Char) : Bool :=
  3 ≤ row.length && row.headD ' ' == '|' && row.getLastD ' ' == '|' &&
  ((row.drop 1).dropLast.all fun c => c.isWhitespace || c == ':' || c == '-')

/-- The table-run replacement: fewer than 2 rows are left unchanged;
otherwise a header row from the first line and one body row per remaining
non-separator line. -/
def tableRender (st : EmailStyle) (run : List (List Char)) : Option (List Char) :=
  let rows := (splitLines (listTrim (joinLines run))).filter (fun r => !(listTrim r).isEmpty)
  if rows.length < 2 then none
  else
    let headerCells := parseRow (rows.headD [])
    let dataRows := (rows.drop 1).filter (fun r => !isSeparatorRow r)
    some ("<table ".data ++ styleTable ++ "><thead><tr>".data ++
      (headerCells.map (fun cell => "<th ".data ++ styleTh st ++ '>' :: cell ++ "</th>".data)).flatten ++
      "</tr></thead><tbody>".data ++
      (dataRows.map (fun row => "<tr>".data ++
        ((parseRow row).map (fun cell => "<td ".data ++ styleTd st ++ '>' :: cell ++ "</td>".data)).flatten ++
        "</tr>".data)).flatten ++
      "</tbody></table>".data)

/-- Joining `lines.join("<br>")`. -/
def joinBr : List (List Char) → List Char
  | [] => []
  | [l] => l
  | l :: r :: rest => l ++ "<br>".data ++ joinBr (r :: rest)

/-- Strip the `^>\s?` blockquote marker of one line. -/
def stripBqMarker : List Char → List Char
  | '>' :: c :: rest => if c.isWhitespace then rest else c :: rest
  | '>' :: [] => []
  | l => l

/-- The blockquote-run replacement: drop blank lines, strip markers,
trim, drop now-empty lines, and join everything with `<br>` into a single
`<blockquote><p>…</p></blockquote>`. -/
def bqRender (st : EmailStyle) (run : List (List Char)) : Option (List Char) :=
  let lines := ((run.filter (fun l => !(listTrim l).isEmpty)).map
      (fun l => listTrim (stripBqMarker l))).filter (fun l => !l.isEmpty)
  if lines.isEmpty then some []
  else
    some ("<blockquote ".data ++ styleBq st ++ "><p ".data ++ styleP ++ '>' ::
      joinBr lines ++ "</p></blockquote>".data)

/-- The unordered-list-run replacement. -/
def ulRender (run : List (List Char)) : Option (List Char) :=
  let items := (run.filter (fun l => !(listTrim l).isEmpty)).map
    (fun l => "<li ".data ++ styleLi ++ '>' :: l.drop 2 ++ "</li>".data)
  some ("<ul ".data ++ styleUl ++ ">\n".data ++ joinLines items ++ "\n</ul>".data)

/-- The ordered-list-run replacement (`^\d+\. ` stripped per item). -/
def olRender (run : List (List Char)) : Option (List Char) :=
  let items := (run.filter (fun l => !(listTrim l).isEmpty)).map
    (fun l => "<li ".data ++ styleLi ++ '>' :: l.drop ((l.takeWhile (·.isDigit)).length + 2) ++ "</li>".data)
  some ("<ol ".data ++ styleOl ++ ">\n".data ++ joinLines items ++ "\n</ol>".data)

/-- The block-element tests of the paragraph-wrapping post-pass. -/
def blockOpenTags : List (List Char) :=
  ["<h1", "<h2", "<h3", "<h4", "<h5", "<h6", "<ul", "<ol", "<li", "<blockquote",
   "<pre", "<hr", "<p", "<table", "<thead", "<tbody", "<tr", "<th", "<td"].map String.data

def blockCloseTags : List (List Char) :=
  ["</h1>", "</h2>", "</h3>", "</h4>", "</h5>", "</h6>", "</ul>", "</ol>", "</li>",
   "</blockquote>", "</pre>", "</p>", "</table>", "</thead>", "</tbody>", "</tr>",
   "</th>", "</td>"].map String.data

def isBlockElement (l : List Char) : Bool :=
  blockOpenTags.any (·.isPrefixOf l) || blockCloseTags.any (·.isPrefixOf l)

/-- The paragraph-wrapping scan: open a `<p>` on the first non-blank
non-block line, close it on a blank line or block element. -/
def paraAux : Bool → List (List Char) → List (List Char)
  | inP, [] => if inP then ["</p>".data] else []
  | inP, l :: rest =>
    let t := listTrim l
    if t.isEmpty then
      (if inP then ["</p>".data, l] else [l]) ++ paraAux false rest
    else if isBlockElement t then
      (if inP then ["</p>".data, l] else [l]) ++ paraAux false rest
    else if inP then l :: paraAux true rest
    else ("<p ".data ++ styleP ++ '>' :: l) :: paraAux true rest

/-- The paragraph-wrapping pass over a document. -/
def paragraphPass (doc : List Char) : List Char :=
  joinLines (paraAux false (splitLines doc))

/-- Pattern `^# (.+)$`: the level-1 heading pattern of title extraction. -/
def isH1Line (l : List Char) : Bool := "# ".data.isPrefixOf l && 3 ≤ l.length

/-- Title extraction `md.match(/^# (.+)$/m)`: the capture of the first
matching line, defaulting to `"Report"`. -/
def extractTitle (d : List Char) : String :=
  match (splitLines d).find? isH1Line with
  | some l => String.mk (l.drop 2)
  | none => "Report"

/-- The whole-document form of each pass, self-supplying its fuel. -/
def codeBlockPassDoc (d : List Char) : List Char := codeBlockPass (d.length + 1) d

def tablePassDoc (st : EmailStyle) (d : List Char) : List Char :=
  runPassDoc isTableLine (tableRender st) d

def h4PassDoc (st : EmailStyle) (d : List Char) : List Char := mapLines (h4Line st) d

def h3PassDoc (st : EmailStyle) (d : List Char) : List Char := mapLines (h3Line st) d

def h2PassDoc (st : EmailStyle) (d : List Char) : List Char := mapLines (h2Line st) d

def h1PassDoc (st : EmailStyle) (d : List Char) : List Char := mapLines (h1Line st) d

def boldPassDoc (st : EmailStyle) (d : List Char) : List Char :=
  boldPass st (d.length + 1) d

def italicPassDoc (st : EmailStyle) (d : List Char) : List Char :=
  italicPass st (d.length + 1) d

def linkPassDoc (st : EmailStyle) (d : List Char) : List Char :=
  linkPass st (d.length + 1) d

def codeSpanPassDoc (st : EmailStyle) (d : List Char) : List Char :=
  codeSpanPass st (d.length + 1) d

def hrPassDoc (st : EmailStyle) (d : List Char) : List Char := mapLines (hrLine st) d

def bqPassDoc (st : EmailStyle) (d : List Char) : List Char :=
  runPassDoc isBqLine (bqRender st) d

def ulPassDoc (d : List Char) : List Char := runPassDoc isUlLine ulRender d

def olPassDoc (d : List Char) : List Char := runPassDoc isOlLine olRender d

/-- The pass pipeline in source order: code blocks, tables, headings
h4…h1, bold, italic, links, code spans, rules, blockquotes, unordered and
ordered lists, paragraph wrapping. -/
def pipeline (st : EmailStyle) (d : List Char) : List Char :=
  paragraphPass (olPassDoc (ulPassDoc (bqPassDoc st (hrPassDoc st
    (codeSpanPassDoc st (linkPassDoc st (italicPassDoc st (boldPassDoc st
      (h1PassDoc st (h2PassDoc st (h3PassDoc st (h4PassDoc st
        (tablePassDoc st (codeBlockPassDoc d))))))))))))))

/-- Function `markdownToEmailHtml`: title extraction from the raw markdown, plus
the pass pipeline.  Returns `(html, title)`. -/
def markdownToEmailHtml (md : String) (st : EmailStyle) : String × String :=
  (String.mk (pipeline st md.data), extractTitle md.data)

end Md

/-- Number of positions at which `p` occurs in `l` (for nonempty `p`). -/
def countSub (p : List Char) : List Char → Nat
  | [] => 0
  | c :: rest => (if p.isPrefixOf (c :: rest) then 1 else 0) + countSub p rest

/-- The table emitted for the three-line C6 input (client style): header
cells `A`, `B`, then a body row with cells `---`, `---`, then the `1`,
`2` row. -/
def c6TableHtml : String :=
  "<table style=\"width: 100%; margin: 20px 0; border-collapse: collapse; font-size: 15px;\"><thead><tr><th style=\"padding: 10px 12px; text-align: left; border-bottom: 1px solid #d4d3cf; font-family: \x27Courier New\x27, monospace; font-size: 12px; font-weight: 500; text-transform: uppercase; letter-spacing: 0.12em; color: #000000; background: rgba(14, 59, 70, 0.03);\">A</th><th style=\"padding: 10px 12px; text-align: left; border-bottom: 1px solid #d4d3cf; font-family: \x27Courier New\x27, monospace; font-size: 12px; font-weight: 500; text-transform: uppercase; letter-spacing: 0.12em; color: #000000; background: rgba(14, 59, 70, 0.03);\">B</th></tr></thead><tbody><tr><td style=\"padding: 10px 12px; text-align: left; border-bottom: 1px solid #d4d3cf; font-size: 15px; color: #000000;\">---</td><td style=\"padding: 10px 12px; text-align: left; border-bottom: 1px solid #d4d3cf; font-size: 15px; color: #000000;\">---</td></tr><tr><td style=\"padding: 10px 12px; text-align: left; border-bottom: 1px solid #d4d3cf; font-size: 15px; color: #000000;\">1</td><td style=\"padding: 10px 12px; text-align: left; border-bottom: 1px solid #d4d3cf; font-size: 15px; color: #000000;\">2</td></tr></tbody></table>"


theorem b64Val_b64Char : ∀ v, v < 64 → b64Val (b64Char v) = v := by decide

theorem revSubst_substChar : ∀ v, v < 64 →
    revSubstChar (substChar (b64Char v)) = b64Char v := by decide

theorem substChar_b64Char_ne_eq : ∀ v, v < 64 → substChar (b64Char v) ≠ '=' := by decide

theorem substChar_b64Char_ne_plus : ∀ v, v < 64 → substChar (b64Char v) ≠ '+' := by decide

theorem substChar_b64Char_ne_slash : ∀ v, v < 64 → substChar (b64Char v) ≠ '/' := by decide

theorem stripTrailingEq_append_of_no_eq {xs ys : List Char}
    (h : ∀ c ∈ xs, c ≠ '=') :
    stripTrailingEq (xs ++ ys) = xs ++ stripTrailingEq ys := by
  have hxs : xs.reverse.dropWhile (· = '=') = xs.reverse := by
    rw [List.dropWhile_eq_self_iff]
    intro hl
    simp only [decide_eq_true_eq]
    intro heq
    exact h _ (List.mem_reverse.mp (heq ▸ List.get_mem _ _ _)) heq
  unfold stripTrailingEq
  rw [List.reverse_append, List.dropWhile_append]
  by_cases hys : (List.dropWhile (fun x => x = '=') ys.reverse).isEmpty = true
  · rw [if_pos hys, hxs, List.reverse_reverse]
    rw [List.isEmpty_iff] at hys
    rw [hys]
    simp
  · rw [if_neg hys, List.reverse_append, List.reverse_reverse]

theorem encodeUrl_eq_strip (bs : List Nat) (hb : ∀ x ∈ bs, x < 256) :
    stripTrailingEq ((encodeChunks bs).map substChar) = encodeUrlChunks bs := by
  match bs with
  | [] => simp [encodeChunks, encodeUrlChunks, stripTrailingEq]
  | [a] =>
      have ha : a < 256 := hb a (by simp)
      have h1 : a / 4 < 64 := by omega
      have h2 : (a % 4) * 16 < 64 := by omega
      simp only [encodeChunks, List.map_cons, List.map_nil]
      have hno : ∀ c ∈ [substChar (b64Char (a / 4)), substChar (b64Char ((a % 4) * 16))],
          c ≠ '=' := by
        intro c hc
        simp only [List.mem_cons, List.not_mem_nil, or_false] at hc
        rcases hc with h | h
        · exact h ▸ substChar_b64Char_ne_eq _ h1
        · exact h ▸ substChar_b64Char_ne_eq _ h2
      calc stripTrailingEq (substChar (b64Char (a / 4)) ::
              substChar (b64Char ((a % 4) * 16)) :: substChar '=' :: substChar '=' :: [])
          = stripTrailingEq
              ([substChar (b64Char (a / 4)), substChar (b64Char ((a % 4) * 16))] ++
               [substChar '=', substChar '=']) := rfl
        _ = _ := by
          rw [stripTrailingEq_append_of_no_eq hno,
            show stripTrailingEq [substChar '=', substChar '='] = [] from by decide,
            List.append_nil]
          rfl
  | [a, b] =>
      have ha : a < 256 := hb a (by simp)
      have hbb : b < 256 := hb b (by simp)
      have h1 : a / 4 < 64 := by omega
      have h2 : (a % 4) * 16 + b / 16 < 64 := by omega
      have h3 : (b % 16) * 4 < 64 := by omega
      simp only [encodeChunks, List.map_cons, List.map_nil]
      have hno : ∀ c ∈ [substChar (b64Char (a / 4)),
          substChar (b64Char ((a % 4) * 16 + b / 16)),
          substChar (b64Char ((b % 16) * 4))], c ≠ '=' := by
        intro c hc
        simp only [List.mem_cons, List.not_mem_nil, or_false] at hc
        rcases hc with h | h | h
        · exact h ▸ substChar_b64Char_ne_eq _ h1
        · exact h ▸ substChar_b64Char_ne_eq _ h2
        · exact h ▸ substChar_b64Char_ne_eq _ h3
      calc stripTrailingEq (substChar (b64Char (a / 4)) ::
              substChar (b64Char ((a % 4) * 16 + b / 16)) ::
              substChar (b64Char ((b % 16) * 4)) :: substChar '=' :: [])
          = stripTrailingEq
              ([substChar (b64Char (a / 4)), substChar (b64Char ((a % 4) * 16 + b / 16)),
                substChar (b64Char ((b % 16) * 4))] ++ [substChar '=']) := rfl
        _ = _ := by
          rw [stripTrailingEq_append_of_no_eq hno,
            show stripTrailingEq [substChar '='] = [] from by decide,
            List.append_nil]
          rfl
  | a :: b :: c :: rest =>
      have ha : a < 256 := hb a (by simp)
      have hbb : b < 256 := hb b (by simp)
      have hc : c < 256 := hb c (by simp)
      have h1 : a / 4 < 64 := by omega
      have h2 : (a % 4) * 16 + b / 16 < 64 := by omega
      have h3 : (b % 16) * 4 + c / 64 < 64 := by omega
      have h4 : c % 64 < 64 := by omega
      have ih := encodeUrl_eq_strip rest (fun x hx => hb x (by simp [hx]))
      simp only [encodeChunks, List.map_cons]
      have hno : ∀ ch ∈ [substChar (b64Char (a / 4)),
          substChar (b64Char ((a % 4) * 16 + b / 16)),
          substChar (b64Char ((b % 16) * 4 + c / 64)),
          substChar (b64Char (c % 64))], ch ≠ '=' := by
        intro ch hch
        simp only [List.mem_cons, List.not_mem_nil, or_false] at hch
        rcases hch with h | h | h | h
        · exact h ▸ substChar_b64Char_ne_eq _ h1
        · exact h ▸ substChar_b64Char_ne_eq _ h2
        · exact h ▸ substChar_b64Char_ne_eq _ h3
        · exact h ▸ substChar_b64Char_ne_eq _ h4
      calc stripTrailingEq (substChar (b64Char (a / 4)) ::
              substChar (b64Char ((a % 4) * 16 + b / 16)) ::
              substChar (b64Char ((b % 16) * 4 + c / 64)) ::
              substChar (b64Char (c % 64)) :: (encodeChunks rest).map substChar)
          = stripTrailingEq
              ([substChar (b64Char (a / 4)), substChar (b64Char ((a % 4) * 16 + b / 16)),
                substChar (b64Char ((b % 16) * 4 + c / 64)), substChar (b64Char (c % 64))] ++
               (encodeChunks rest).map substChar) := rfl
        _ = _ := by
          rw [stripTrailingEq_append_of_no_eq hno, ih]
          rfl

theorem decode_encodeUrl (bs : List Nat) (hb : ∀ x ∈ bs, x < 256) :
    decodeChunks ((encodeUrlChunks bs).map revSubstChar) = bs := by
  match bs with
  | [] => rfl
  | [a] =>
      have ha : a < 256 := hb a (by simp)
      have h1 : a / 4 < 64 := by omega
      have h2 : (a % 4) * 16 < 64 := by omega
      simp only [encodeUrlChunks, List.map_cons, List.map_nil,
        revSubst_substChar _ h1, revSubst_substChar _ h2]
      simp only [decodeChunks, b64Val_b64Char _ h1, b64Val_b64Char _ h2]
      have e1 : a / 4 * 4 + (a % 4) * 16 / 16 = a := by omega
      rw [e1]
  | [a, b] =>
      have ha : a < 256 := hb a (by simp)
      have hbb : b < 256 := hb b (by simp)
      have h1 : a / 4 < 64 := by omega
      have h2 : (a % 4) * 16 + b / 16 < 64 := by omega
      have h3 : (b % 16) * 4 < 64 := by omega
      simp only [encodeUrlChunks, List.map_cons, List.map_nil,
        revSubst_substChar _ h1, revSubst_substChar _ h2, revSubst_substChar _ h3]
      simp only [decodeChunks, b64Val_b64Char _ h1, b64Val_b64Char _ h2,
        b64Val_b64Char _ h3]
      have e1 : a / 4 * 4 + ((a % 4) * 16 + b / 16) / 16 = a := by omega
      have e2 : ((a % 4) * 16 + b / 16) % 16 * 16 + (b % 16) * 4 / 4 = b := by omega
      rw [e1, e2]
  | a :: b :: c :: rest =>
      have ha : a < 256 := hb a (by simp)
      have hbb : b < 256 := hb b (by simp)
      have hc : c < 256 := hb c (by simp)
      have h1 : a / 4 < 64 := by omega
      have h2 : (a % 4) * 16 + b / 16 < 64 := by omega
      have h3 : (b % 16) * 4 + c / 64 < 64 := by omega
      have h4 : c % 64 < 64 := by omega
      have ih := decode_encodeUrl rest (fun x hx => hb x (by simp [hx]))
      simp only [encodeUrlChunks, List.map_cons,
        revSubst_substChar _ h1, revSubst_substChar _ h2,
        revSubst_substChar _ h3, revSubst_substChar _ h4]
      simp only [decodeChunks, b64Val_b64Char _ h1, b64Val_b64Char _ h2,
        b64Val_b64Char _ h3, b64Val_b64Char _ h4, ih]
      have e1 : a / 4 * 4 + ((a % 4) * 16 + b / 16) / 16 = a := by omega
      have e2 : ((a % 4) * 16 + b / 16) % 16 * 16 + ((b % 16) * 4 + c / 64) / 4 = b := by
        omega
      have e3 : ((b % 16) * 4 + c / 64) % 4 * 64 + c % 64 = c := by omega
      rw [e1, e2, e3]

theorem mem_encodeUrlChunks (bs : List Nat) (hb : ∀ x ∈ bs, x < 256) :
    ∀ ch ∈ encodeUrlChunks bs, ∃ v, v < 64 ∧ ch = substChar (b64Char v) := by
  match bs with
  | [] => intro ch hch; cases hch
  | [a] =>
      have ha : a < 256 := hb a (by simp)
      intro ch hch
      simp only [encodeUrlChunks, List.mem_cons, List.not_mem_nil, or_false] at hch
      rcases hch with h | h
      · exact ⟨a / 4, by omega, h⟩
      · exact ⟨(a % 4) * 16, by omega, h⟩
  | [a, b] =>
      have ha : a < 256 := hb a (by simp)
      have hbb : b < 256 := hb b (by simp)
      intro ch hch
      simp only [encodeUrlChunks, List.mem_cons, List.not_mem_nil, or_false] at hch
      rcases hch with h | h | h
      · exact ⟨a / 4, by omega, h⟩
      · exact ⟨(a % 4) * 16 + b / 16, by omega, h⟩
      · exact ⟨(b % 16) * 4, by omega, h⟩
  | a :: b :: c :: rest =>
      have ha : a < 256 := hb a (by simp)
      have hbb : b < 256 := hb b (by simp)
      have hc : c < 256 := hb c (by simp)
      have ih := mem_encodeUrlChunks rest (fun x hx => hb x (by simp [hx]))
      intro ch hch
      simp only [encodeUrlChunks, List.mem_cons] at hch
      rcases hch with h | h | h | h | h
      · exact ⟨a / 4, by omega, h⟩
      · exact ⟨(a % 4) * 16 + b / 16, by omega, h⟩
      · exact ⟨(b % 16) * 4 + c / 64, by omega, h⟩
      · exact ⟨c % 64, by omega, h⟩
      · exact ih ch h

theorem char_toNat_lt (c : Char) : c.toNat < 1114112 := by
  rcases c.valid with h | ⟨_, h⟩
  · exact Nat.lt_trans h (by norm_num)
  · exact h

theorem utf8Encode_lt (c : Char) : ∀ x ∈ utf8Encode c, x < 256 := by
  have hv : c.toNat < 1114112 := char_toNat_lt c
  intro x hx
  simp only [utf8Encode] at hx
  split at hx
  · simp at hx; omega
  · split at hx
    · simp at hx; rcases hx with h | h <;> omega
    · split at hx
      · simp at hx; rcases hx with h | h | h <;> omega
      · simp at hx; rcases hx with h | h | h | h <;> omega

theorem strBytes_lt (s : String) : ∀ x ∈ strBytes s, x < 256 := by
  intro x hx
  unfold strBytes at hx
  rw [List.mem_flatten] at hx
  obtain ⟨l, hl, hxl⟩ := hx
  rw [List.mem_map] at hl
  obtain ⟨c, _, rfl⟩ := hl
  exact utf8Encode_lt c x hxl

theorem mem_of_getLast?_eq {l : List Char} {c : Char} (h : l.getLast? = some c) :
    c ∈ l := by
  have hm : c ∈ l.getLast? := by rw [Option.mem_def, h]
  obtain ⟨hne, heq⟩ := List.mem_getLast?_eq_getLast hm
  rw [heq]
  exact List.getLast_mem hne

/-- The key properties of `encodeBase64Url`: its character list is
`encodeUrlChunks` of the message bytes, it avoids `'+'` and `'/'`, never
ends in `'='`, and decodes back to the original bytes after reversing the
character substitutions. -/
theorem encodeBase64Url_spec (s : String) :
    (encodeBase64Url s).data = encodeUrlChunks (strBytes s) ∧
    '+' ∉ (encodeBase64Url s).data ∧
    '/' ∉ (encodeBase64Url s).data ∧
    (encodeBase64Url s).data.getLast? ≠ some '=' ∧
    decodeChunks ((encodeBase64Url s).data.map revSubstChar) = strBytes s := by
  have hb := strBytes_lt s
  have hdata : (encodeBase64Url s).data = encodeUrlChunks (strBytes s) := by
    show stripTrailingEq ((encodeChunks (strBytes s)).map substChar) = _
    exact encodeUrl_eq_strip _ hb
  refine ⟨hdata, ?_, ?_, ?_, ?_⟩
  · rw [hdata]
    intro hmem
    obtain ⟨v, hv, he⟩ := mem_encodeUrlChunks _ hb _ hmem
    exact substChar_b64Char_ne_plus v hv he.symm
  · rw [hdata]
    intro hmem
    obtain ⟨v, hv, he⟩ := mem_encodeUrlChunks _ hb _ hmem
    exact substChar_b64Char_ne_slash v hv he.symm
  · rw [hdata]
    intro hlast
    obtain ⟨v, hv, he⟩ := mem_encodeUrlChunks _ hb _ (mem_of_getLast?_eq hlast)
    exact substChar_b64Char_ne_eq v hv he.symm
  · rw [hdata]
    exact decode_encodeUrl _ hb

theorem substr_refl (s : String) : substr s s := List.infix_refl _

theorem substr_trans {p q r : String} (h1 : substr p q) (h2 : substr q r) :
    substr p r := List.IsInfix.trans h1 h2

theorem substr_appendL {p a b : String} (h : substr p a) : substr p (a ++ b) :=
  List.IsInfix.trans h (List.prefix_append a.data b.data).isInfix

theorem substr_appendR {p a b : String} (h : substr p b) : substr p (a ++ b) :=
  List.IsInfix.trans h (List.suffix_append a.data b.data).isInfix

theorem not_substr_of_mem_not_mem {p s : String} {c : Char}
    (hc : c ∈ p.data) (hs : c ∉ s.data) : ¬ substr p s :=
  fun h => hs (h.subset hc)

theorem prefix_append_split {α : Type} {p a b : List α} (h : p <+: a ++ b) :
    p <+: a ∨ ∃ p₂, p = a ++ p₂ ∧ p₂ <+: b := by
  rcases Nat.le_total p.length a.length with hle | hle
  · exact Or.inl (List.prefix_of_prefix_length_le h (List.prefix_append a b) hle)
  · have ha : a <+: p := List.prefix_of_prefix_length_le (List.prefix_append a b) h hle
    obtain ⟨p₂, rfl⟩ := ha
    refine Or.inr ⟨p₂, rfl, ?_⟩
    obtain ⟨t, ht⟩ := h
    rw [List.append_assoc] at ht
    exact ⟨t, List.append_cancel_left ht⟩

theorem infix_append_split {α : Type} {p a b : List α} (h : p <:+: a ++ b) :
    p <:+: a ∨ p <:+: b ∨
    ∃ p₁ p₂, p = p₁ ++ p₂ ∧ p₁ ≠ [] ∧ p₂ ≠ [] ∧ p₁ <:+ a ∧ p₂ <+: b := by
  induction a with
  | nil => simp only [List.nil_append] at h; exact Or.inr (Or.inl h)
  | cons x a ih =>
    rw [List.cons_append, List.infix_cons_iff] at h
    rcases h with hpre | hinf
    · have hpre' : p <+: (x :: a) ++ b := by simpa using hpre
      rcases prefix_append_split hpre' with h1 | ⟨p₂, rfl, h2⟩
      · exact Or.inl h1.isInfix
      · rcases eq_or_ne p₂ [] with rfl | hne
        · rw [List.append_nil]
          exact Or.inl (List.infix_refl _)
        · exact Or.inr (Or.inr
            ⟨x :: a, p₂, rfl, List.cons_ne_nil _ _, hne, List.suffix_refl _, h2⟩)
    · rcases ih hinf with h1 | h1 | ⟨p₁, p₂, hp, h2, h3, h4, h5⟩
      · exact Or.inl (h1.trans (List.suffix_cons x a).isInfix)
      · exact Or.inr (Or.inl h1)
      · exact Or.inr (Or.inr ⟨p₁, p₂, hp, h2, h3, h4.trans (List.suffix_cons x a), h5⟩)

theorem suffix_last_mem {p₁ lab : List Char} (h : p₁ <:+ lab) (hne : p₁ ≠ []) :
    ∃ c, lab.getLast? = some c ∧ c ∈ p₁ := by
  obtain ⟨w, rfl⟩ := h
  obtain ⟨c, hc⟩ : ∃ c, p₁.getLast? = some c := by
    cases hp : p₁.getLast? with
    | none => exact absurd (List.getLast?_eq_none_iff.mp hp) hne
    | some c => exact ⟨c, rfl⟩
  refine ⟨c, ?_, mem_of_getLast?_eq hc⟩
  rw [List.getLast?_append, hc]
  rfl

theorem not_substr_append_label {p lab s : String}
    (h1 : ¬ substr p lab)
    (h2 : ∀ c, lab.data.getLast? = some c → c ∉ p.data)
    (h3 : ¬ substr p s) :
    ¬ substr p (lab ++ s) := by
  intro h
  rcases infix_append_split (p := p.data) (a := lab.data) (b := s.data) h with
    hh | hh | ⟨p₁, p₂, hp, hne₁, _, hsuf, _⟩
  · exact h1 hh
  · exact h3 hh
  · obtain ⟨c, hc, hcm⟩ := suffix_last_mem hsuf hne₁
    exact h2 c hc (hp ▸ List.mem_append_left _ hcm)

theorem not_substr_empty {p : String} (hne : p.data ≠ []) : ¬ substr p "" := by
  intro h
  obtain ⟨s, t, hst⟩ := h
  have : s ++ p.data ++ t = [] := hst
  have := List.append_eq_nil.mp this
  exact hne (List.append_eq_nil.mp this.1).2

namespace Gmail

theorem joinNl_data_cons (s r : String) (rest : List String) :
    (joinNl (s :: r :: rest)).data =
      s.data ++ '\r' :: '\n' :: (joinNl (r :: rest)).data := by
  show ((s ++ nl) ++ joinNl (r :: rest)).data = _
  rw [String.data_append, String.data_append, List.append_assoc]
  rfl

theorem substr_joinNl_of_mem {x : String} : ∀ {ls : List String}, x ∈ ls →
    substr x (joinNl ls) := by
  intro ls hmem
  induction ls with
  | nil => cases hmem
  | cons s rest ih =>
    cases rest with
    | nil =>
      rcases List.mem_singleton.mp hmem with rfl
      exact substr_refl _
    | cons r rest' =>
      rcases List.mem_cons.mp hmem with rfl | hmem'
      · show substr x (x ++ nl ++ joinNl (r :: rest'))
        exact substr_appendL (substr_appendL (substr_refl _))
      · show substr x (s ++ nl ++ joinNl (r :: rest'))
        exact substr_appendR (ih hmem')

theorem not_substr_joinNl {p : String} (hne : p.data ≠ [])
    (hcr : '\r' ∉ p.data) (hlf : '\n' ∉ p.data) :
    ∀ ls : List String, (∀ l ∈ ls, ¬ substr p l) → ¬ substr p (joinNl ls) := by
  intro ls
  induction ls with
  | nil => intro _; exact not_substr_empty hne
  | cons s rest ih =>
    intro hls
    cases rest with
    | nil => simpa [joinNl] using hls s (by simp)
    | cons r rest' =>
      intro h
      have h' : p.data <:+: s.data ++ ('\r' :: '\n' :: (joinNl (r :: rest')).data) := by
        have := h
        rw [substr, joinNl_data_cons] at this
        exact this
      rcases infix_append_split h' with hh | hh | ⟨p₁, p₂, hp, hne₁, hne₂, _, hpre⟩
      · exact hls s (by simp) hh
      · rcases List.infix_cons_iff.mp hh with hh2 | hh2
        · cases hpd : p.data with
          | nil => exact hne hpd
          | cons c p' =>
            rw [hpd] at hh2
            have := (List.cons_prefix_cons.mp hh2).1
            exact hcr (by rw [hpd, this]; exact List.mem_cons_self _ _)
        · rcases List.infix_cons_iff.mp hh2 with hh3 | hh3
          · cases hpd : p.data with
            | nil => exact hne hpd
            | cons c p' =>
              rw [hpd] at hh3
              have := (List.cons_prefix_cons.mp hh3).1
              exact hlf (by rw [hpd, this]; exact List.mem_cons_self _ _)
          · exact ih (fun l hl => hls l (by simp [hl])) hh3
      · cases hp₂ : p₂ with
        | nil => exact hne₂ hp₂
        | cons c p₂' =>
          rw [hp₂] at hpre
          have := (List.cons_prefix_cons.mp hpre).1
          have hcm : '\r' ∈ p.data := by
            rw [hp, hp₂, this]
            exact List.mem_append_right _ (List.mem_cons_self _ _)
          exact hcr hcm

end Gmail

namespace Gmail

theorem digitChar_isDigit : ∀ m, m < 10 → (Nat.digitChar m).isDigit = true := by decide

theorem toDigitsCore_digits :
    ∀ (fuel n : Nat) (acc : List Char), (∀ c ∈ acc, c.isDigit = true) →
      ∀ c ∈ Nat.toDigitsCore 10 fuel n acc, c.isDigit = true := by
  intro fuel
  induction fuel with
  | zero => intro n acc hacc c hc; exact hacc c hc
  | succ f ih =>
    intro n acc hacc c hc
    simp only [Nat.toDigitsCore] at hc
    split at hc
    · rcases List.mem_cons.mp hc with rfl | h
      · exact digitChar_isDigit _ (Nat.mod_lt _ (by norm_num))
      · exact hacc c h
    · refine ih _ _ ?_ c hc
      intro c' hc'
      rcases List.mem_cons.mp hc' with rfl | h
      · exact digitChar_isDigit _ (Nat.mod_lt _ (by norm_num))
      · exact hacc c' h

theorem repr_digits (n : Nat) : ∀ c ∈ (Nat.repr n).data, c.isDigit = true := by
  intro c hc
  have hd : (Nat.repr n).data = Nat.toDigits 10 n := rfl
  rw [hd] at hc
  exact toDigitsCore_digits _ _ _ (by intro c' hc'; cases hc') c hc

theorem isBoundaryChar_of_isDigit {c : Char} (h : c.isDigit = true) :
    isBoundaryChar c = true := by
  simp [isBoundaryChar, h]

theorem boundary_chars_aux {pre post : String}
    (hpre : ∀ x ∈ pre.data, isBoundaryChar x = true)
    (hpost : ∀ x ∈ post.data, isBoundaryChar x = true) (ts : Nat) :
    ∀ c ∈ ((pre ++ Nat.repr ts) ++ post).data, isBoundaryChar c = true := by
  intro c hc
  rw [String.data_append, String.data_append] at hc
  rcases List.mem_append.mp hc with h | h
  · rcases List.mem_append.mp h with h' | h'
    · exact hpre c h'
    · exact isBoundaryChar_of_isDigit (repr_digits ts c h')
  · exact hpost c h

theorem mixedBoundary_chars (ts : Nat) :
    ∀ c ∈ (mixedBoundary ts).data, isBoundaryChar c = true :=
  boundary_chars_aux (by decide) (by decide) ts

theorem altBoundary_chars (ts : Nat) :
    ∀ c ∈ (altBoundary ts).data, isBoundaryChar c = true :=
  boundary_chars_aux (by decide) (by decide) ts

theorem relatedBoundary_chars (ts : Nat) :
    ∀ c ∈ (relatedBoundary ts).data, isBoundaryChar c = true :=
  boundary_chars_aux (by decide) (by decide) ts

theorem underscore_mem_mixedBoundary (ts : Nat) : '_' ∈ (mixedBoundary ts).data := by
  show '_' ∈ (("____mixed_" ++ Nat.repr ts) ++ "____").data
  rw [String.data_append, String.data_append]
  exact List.mem_append_left _ (List.mem_append_left _ (by decide))

theorem underscore_mem_altBoundary (ts : Nat) : '_' ∈ (altBoundary ts).data := by
  show '_' ∈ (("____alt_" ++ Nat.repr ts) ++ "____").data
  rw [String.data_append, String.data_append]
  exact List.mem_append_left _ (List.mem_append_left _ (by decide))

theorem underscore_mem_relatedBoundary (ts : Nat) : '_' ∈ (relatedBoundary ts).data := by
  show '_' ∈ (("____related_" ++ Nat.repr ts) ++ "____").data
  rw [String.data_append, String.data_append]
  exact List.mem_append_left _ (List.mem_append_left _ (by decide))

end Gmail

namespace Gmail

theorem mixedBoundary_length (ts : Nat) :
    (mixedBoundary ts).length = 14 + (Nat.repr ts).length := by
  show (("____mixed_" ++ Nat.repr ts) ++ "____").length = _
  rw [String.length_append, String.length_append]
  have h1 : "____mixed_".length = 10 := by decide
  have h2 : "____".length = 4 := by decide
  omega

theorem altBoundary_length (ts : Nat) :
    (altBoundary ts).length = 12 + (Nat.repr ts).length := by
  show (("____alt_" ++ Nat.repr ts) ++ "____").length = _
  rw [String.length_append, String.length_append]
  have h1 : "____alt_".length = 8 := by decide
  have h2 : "____".length = 4 := by decide
  omega

theorem relatedBoundary_length (ts : Nat) :
    (relatedBoundary ts).length = 16 + (Nat.repr ts).length := by
  show (("____related_" ++ Nat.repr ts) ++ "____").length = _
  rw [String.length_append, String.length_append]
  have h1 : "____related_".length = 12 := by decide
  have h2 : "____".length = 4 := by decide
  omega

theorem loadAll_ok (fs : Fs) :
    ∀ paths : List String, (∀ p ∈ paths, (fs p).isSome) →
      ∃ atts, loadAll fs paths = .ok atts := by
  intro paths
  induction paths with
  | nil => intro _; exact ⟨[], rfl⟩
  | cons p rest ih =>
    intro hall
    obtain ⟨c, hc⟩ := Option.isSome_iff_exists.mp (hall p (by simp))
    obtain ⟨atts, hatts⟩ := ih (fun q hq => hall q (by simp [hq]))
    refine ⟨⟨basename p, c, getMimeType p, false, ""⟩ :: atts, ?_⟩
    simp [loadAll, loadAttachment, readFile, hc, hatts]
    rfl

theorem loadAllInline_ok (fs : Fs) :
    ∀ pcs : List (String × String), (∀ pc ∈ pcs, (fs pc.1).isSome) →
      ∃ imgs, loadAllInline fs pcs = .ok imgs := by
  intro pcs
  induction pcs with
  | nil => intro _; exact ⟨[], rfl⟩
  | cons pc rest ih =>
    intro hall
    obtain ⟨c, hc⟩ := Option.isSome_iff_exists.mp (hall pc (by simp))
    obtain ⟨imgs, himgs⟩ := ih (fun q hq => hall q (by simp [hq]))
    refine ⟨⟨basename pc.1, c, getMimeType pc.1, true, pc.2⟩ :: imgs, ?_⟩
    simp [loadAllInline, loadInlineImage, readFile, hc, himgs]
    rfl

theorem loadAll_error_first (fs : Fs) (p : String) (post : List String)
    (hp : fs p = none) :
    ∀ pre : List String, (∀ q ∈ pre, (fs q).isSome) →
      loadAll fs (pre ++ p :: post) = .error (enoentMsg p) := by
  intro pre
  induction pre with
  | nil =>
    intro _
    show (do
      let a ← loadAttachment fs p
      let as ← loadAll fs post
      pure (a :: as) : Except String (List Attachment)) = .error (enoentMsg p)
    simp [loadAttachment, readFile, hp]
    rfl
  | cons q pre' ih =>
    intro hall
    obtain ⟨c, hc⟩ := Option.isSome_iff_exists.mp (hall q (by simp))
    have hrest := ih (fun r hr => hall r (by simp [hr]))
    show (do
      let a ← loadAttachment fs q
      let as ← loadAll fs (pre' ++ p :: post)
      pure (a :: as) : Except String (List Attachment)) = .error (enoentMsg p)
    simp [loadAttachment, readFile, hc, hrest]
    rfl

theorem substr_self_enoentMsg (p : String) : substr p (enoentMsg p) := by
  show substr p (("ENOENT: no such file or directory, open '" ++ p) ++ "'")
  exact substr_appendL (substr_appendR (substr_refl p))

end Gmail

/-- Claim C10: within one invocation of `createRawMessage`, the three
candidate boundary strings are derived from the shared timestamp with three
distinct fixed labels and are pairwise distinct, so in the nested
multipart shapes the inner boundary never equals the outer boundary. -/
theorem createRawMessage_boundaries_distinct (ts : Nat) :
    Gmail.mixedBoundary ts ≠ Gmail.altBoundary ts ∧
    Gmail.mixedBoundary ts ≠ Gmail.relatedBoundary ts ∧
    Gmail.altBoundary ts ≠ Gmail.relatedBoundary ts := by
  refine ⟨fun h => ?_, fun h => ?_, fun h => ?_⟩ <;>
    have hl := congrArg String.length h
  · rw [Gmail.mixedBoundary_length, Gmail.altBoundary_length] at hl; omega
  · rw [Gmail.mixedBoundary_length, Gmail.relatedBoundary_length] at hl; omega
  · rw [Gmail.altBoundary_length, Gmail.relatedBoundary_length] at hl; omega

/-- Claim C2: for every input of `createRawMessage`, the returned
base64url string contains no `'+'` and no `'/'`, does not end in `'='`,
and reversing the character substitutions and base64-decoding reproduces
exactly the bytes of the assembled message that were fed to the
encoder. -/
theorem createRawMessage_base64url_roundtrip
    (toAddr subject body fromF html : String)
    (atts imgs : List Gmail.Attachment) (ts : Nat) :
    '+' ∉ (Gmail.createRawMessage toAddr subject body fromF html atts imgs ts).data ∧
    '/' ∉ (Gmail.createRawMessage toAddr subject body fromF html atts imgs ts).data ∧
    (Gmail.createRawMessage toAddr subject body fromF html atts imgs ts).data.getLast? ≠
      some '=' ∧
    decodeChunks
      ((Gmail.createRawMessage toAddr subject body fromF html atts imgs ts).data.map
        revSubstChar) =
      strBytes (Gmail.rawMimeMessage toAddr subject body fromF html atts imgs ts) := by
  have h := encodeBase64Url_spec
    (Gmail.rawMimeMessage toAddr subject body fromF html atts imgs ts)
  exact ⟨h.2.1, h.2.2.1, h.2.2.2.1, h.2.2.2.2⟩

/-- Claim C9: `sendMessage` either reads every attachment and inline image
and produces a complete encoded envelope, or the first read failure makes
the whole call fail with an error naming the offending file, and no
envelope is produced. -/
theorem sendMessage_all_or_first_error (fs : Gmail.Fs)
    (toAddr subject body html : String) (attachmentPaths : List String)
    (inlineImagePaths : List (String × String)) (ts : Nat) :
    ((∀ p ∈ attachmentPaths, (fs p).isSome) →
     (∀ pc ∈ inlineImagePaths, (fs pc.1).isSome) →
      ∃ raw, Gmail.sendMessage fs toAddr subject body html attachmentPaths
        inlineImagePaths ts = .ok raw) ∧
    (∀ pre p post, attachmentPaths = pre ++ p :: post →
      (∀ q ∈ pre, (fs q).isSome) → fs p = none →
      Gmail.sendMessage fs toAddr subject body html attachmentPaths
        inlineImagePaths ts = .error (Gmail.enoentMsg p) ∧
      substr p (Gmail.enoentMsg p)) := by
  constructor
  · intro hatt hinl
    obtain ⟨atts, hatts⟩ := Gmail.loadAll_ok fs attachmentPaths hatt
    obtain ⟨imgs, himgs⟩ := Gmail.loadAllInline_ok fs inlineImagePaths hinl
    refine ⟨Gmail.createRawMessage toAddr subject body "" html atts imgs ts, ?_⟩
    simp [Gmail.sendMessage, hatts, himgs]
    rfl
  · intro pre p post hsplit hpre hp
    refine ⟨?_, Gmail.substr_self_enoentMsg p⟩
    subst hsplit
    have herr := Gmail.loadAll_error_first fs p post hp pre hpre
    simp [Gmail.sendMessage, herr]
    rfl

/-- Witness for C9: with the filesystem `fsW`, sending with the readable
attachment succeeds, and sending with an unreadable second attachment
fails with the ENOENT error that names it. -/
theorem sendMessage_all_or_first_error_witness :
    (∃ raw, Gmail.sendMessage fsW "r@e.com" "s" "b" "" ["a.txt"] [] 0 = .ok raw) ∧
    (Gmail.sendMessage fsW "r@e.com" "s" "b" "" ["a.txt", "miss.txt"] [] 0 =
      .error (Gmail.enoentMsg "miss.txt") ∧
      substr "miss.txt" (Gmail.enoentMsg "miss.txt")) := by
  constructor
  · exact (sendMessage_all_or_first_error fsW "r@e.com" "s" "b" "" ["a.txt"] [] 0).1
      (by intro p hp; simp at hp; subst hp; decide)
      (by intro pc hpc; cases hpc)
  · exact (sendMessage_all_or_first_error fsW "r@e.com" "s" "b" ""
      ["a.txt", "miss.txt"] [] 0).2 ["a.txt"] "miss.txt" [] rfl
      (by intro q hq; simp at hq; subst hq; decide) (by decide)

namespace Gmail

theorem substr_ct_headers (toAddr subject fromF ct : String) :
    substr ct (joinNl (headerLines toAddr subject fromF ct)) :=
  substr_joinNl_of_mem (by by_cases h : fromF = "" <;> simp [headerLines, h])

theorem boundary_label_last {b lab : String}
    (hchars : ∀ c ∈ b.data, isBoundaryChar c = true)
    (hlast : lab.data.getLast? = some ' ') :
    ∀ c, lab.data.getLast? = some c → c ∉ b.data := by
  intro c hc hmem
  rw [hlast] at hc
  injection hc with h
  subst h
  exact absurd (hchars _ hmem) (by decide)

theorem boundary_not_in_plainMessage {b toAddr subject body fromF : String}
    (hchars : ∀ c ∈ b.data, isBoundaryChar c = true)
    (hus : '_' ∈ b.data)
    (hto : ¬ substr b toAddr) (hsubj : ¬ substr b subject)
    (hbody : ¬ substr b body) (hfrom : ¬ substr b fromF) :
    ¬ substr b (plainMessage toAddr subject body fromF) := by
  have hne : b.data ≠ [] := List.ne_nil_of_mem hus
  have hcr : '\r' ∉ b.data := fun h => absurd (hchars _ h) (by decide)
  have hlf : '\n' ∉ b.data := fun h => absurd (hchars _ h) (by decide)
  apply not_substr_joinNl hne hcr hlf
  intro l hl
  have hl' := (List.mem_filter.mp hl).1
  by_cases hf : fromF = "" <;> simp [hf] at hl'
  · rcases hl' with rfl | rfl | rfl | rfl | rfl | rfl
    · exact not_substr_of_mem_not_mem hus (by decide)
    · exact not_substr_append_label (not_substr_of_mem_not_mem hus (by decide))
        (boundary_label_last hchars (by decide)) hto
    · exact not_substr_append_label (not_substr_of_mem_not_mem hus (by decide))
        (boundary_label_last hchars (by decide)) hsubj
    · exact not_substr_of_mem_not_mem hus (by decide)
    · exact not_substr_empty hne
    · exact hbody
  · rcases hl' with rfl | rfl | rfl | rfl | rfl | rfl | rfl
    · exact not_substr_of_mem_not_mem hus (by decide)
    · exact not_substr_append_label (not_substr_of_mem_not_mem hus (by decide))
        (boundary_label_last hchars (by decide)) hto
    · exact not_substr_append_label (not_substr_of_mem_not_mem hus (by decide))
        (boundary_label_last hchars (by decide)) hfrom
    · exact not_substr_append_label (not_substr_of_mem_not_mem hus (by decide))
        (boundary_label_last hchars (by decide)) hsubj
    · exact not_substr_of_mem_not_mem hus (by decide)
    · exact not_substr_empty hne
    · exact hbody
end Gmail

theorem boundaryFree_of_no_underscore {s : String} (h : '_' ∉ s.data) (ts : Nat) :
    BoundaryFree ts s := by
  intro b hb
  simp only [List.mem_cons, List.not_mem_nil, or_false] at hb
  rcases hb with rfl | rfl | rfl
  · exact not_substr_of_mem_not_mem (Gmail.underscore_mem_mixedBoundary ts) h
  · exact not_substr_of_mem_not_mem (Gmail.underscore_mem_altBoundary ts) h
  · exact not_substr_of_mem_not_mem (Gmail.underscore_mem_relatedBoundary ts) h

/-- Claim C1: `createRawMessage` selects exactly one of six mutually
exclusive MIME shapes by the documented precedence on the presence flags;
each shape's message carries the corresponding top-level and nested
multipart Content-Type headers, and the no-optional-inputs shape is the
single `text/plain` message with no boundary string anywhere (stated for
inputs that do not themselves contain a boundary string). -/
theorem createRawMessage_mime_shapes
    (toAddr subject body fromF html : String)
    (atts imgs : List Gmail.Attachment) (ts : Nat)
    (hto : BoundaryFree ts toAddr) (hsubj : BoundaryFree ts subject)
    (hbody : BoundaryFree ts body) (hfrom : BoundaryFree ts fromF) :
    (∀ a h i : Bool,
      ([a && h && i, a && h && !i, a && !h, !a && h && i, !a && h && !i,
        !a && !h].count true) = 1) ∧
    (atts ≠ [] → html ≠ "" → imgs ≠ [] →
      substr (Gmail.ctMixed ts)
        (Gmail.rawMimeMessage toAddr subject body fromF html atts imgs ts) ∧
      substr (Gmail.ctRelated ts)
        (Gmail.rawMimeMessage toAddr subject body fromF html atts imgs ts)) ∧
    (atts ≠ [] → html ≠ "" → imgs = [] →
      substr (Gmail.ctMixed ts)
        (Gmail.rawMimeMessage toAddr subject body fromF html atts imgs ts) ∧
      substr (Gmail.ctAlt ts)
        (Gmail.rawMimeMessage toAddr subject body fromF html atts imgs ts)) ∧
    (atts ≠ [] → html = "" →
      substr (Gmail.ctMixed ts)
        (Gmail.rawMimeMessage toAddr subject body fromF html atts imgs ts) ∧
      substr Gmail.ctPlainLine
        (Gmail.rawMimeMessage toAddr subject body fromF html atts imgs ts)) ∧
    (atts = [] → html ≠ "" → imgs ≠ [] →
      substr (Gmail.ctRelated ts)
        (Gmail.rawMimeMessage toAddr subject body fromF html atts imgs ts)) ∧
    (atts = [] → html ≠ "" → imgs = [] →
      substr (Gmail.ctAlt ts)
        (Gmail.rawMimeMessage toAddr subject body fromF html atts imgs ts) ∧
      substr Gmail.ctPlainLine
        (Gmail.rawMimeMessage toAddr subject body fromF html atts imgs ts) ∧
      substr Gmail.ctHtmlLine
        (Gmail.rawMimeMessage toAddr subject body fromF html atts imgs ts)) ∧
    (atts = [] → html = "" →
      Gmail.rawMimeMessage toAddr subject body fromF html atts imgs ts =
        Gmail.plainMessage toAddr subject body fromF ∧
      ∀ b ∈ [Gmail.mixedBoundary ts, Gmail.altBoundary ts, Gmail.relatedBoundary ts],
        ¬ substr b
          (Gmail.rawMimeMessage toAddr subject body fromF html atts imgs ts)) := by
  refine ⟨by decide, ?_, ?_, ?_, ?_, ?_, ?_⟩
  · intro hatts hhtml hinl
    rw [Gmail.rawMimeMessage, if_pos ⟨hatts, hhtml, hinl⟩]
    constructor
    · have hh := Gmail.substr_ct_headers toAddr subject fromF (Gmail.ctMixed ts)
      iterate 14 apply substr_appendL
      exact hh
    · have hh : substr (Gmail.ctRelated ts)
          (Gmail.joinNl ["--" ++ Gmail.mixedBoundary ts, Gmail.ctRelated ts]) :=
        Gmail.substr_joinNl_of_mem (by simp)
      iterate 11 apply substr_appendL
      exact substr_appendR hh
  · intro hatts hhtml hinl
    rw [Gmail.rawMimeMessage, if_neg (by simp [hinl]), if_pos ⟨hatts, hhtml⟩]
    constructor
    · have hh := Gmail.substr_ct_headers toAddr subject fromF (Gmail.ctMixed ts)
      iterate 14 apply substr_appendL
      exact hh
    · have hh : substr (Gmail.ctAlt ts)
          (Gmail.joinNl ["--" ++ Gmail.mixedBoundary ts, Gmail.ctAlt ts]) :=
        Gmail.substr_joinNl_of_mem (by simp)
      iterate 11 apply substr_appendL
      exact substr_appendR hh
  · intro hatts hhtml
    rw [Gmail.rawMimeMessage, if_neg (by simp [hhtml]), if_neg (by simp [hhtml]),
      if_pos hatts]
    constructor
    · have hh := Gmail.substr_ct_headers toAddr subject fromF (Gmail.ctMixed ts)
      iterate 7 apply substr_appendL
      exact hh
    · have hh : substr Gmail.ctPlainLine (Gmail.textPart (Gmail.mixedBoundary ts) body) :=
        Gmail.substr_joinNl_of_mem (by simp [Gmail.textPart])
      iterate 4 apply substr_appendL
      exact substr_appendR hh
  · intro hatts hhtml hinl
    rw [Gmail.rawMimeMessage, if_neg (by simp [hatts]), if_neg (by simp [hatts]),
      if_neg (by simp [hatts]), if_pos ⟨hhtml, hinl⟩]
    have hh := Gmail.substr_ct_headers toAddr subject fromF (Gmail.ctRelated ts)
    iterate 7 apply substr_appendL
    exact hh
  · intro hatts hhtml hinl
    rw [Gmail.rawMimeMessage, if_neg (by simp [hatts]), if_neg (by simp [hatts]),
      if_neg (by simp [hatts]), if_neg (by simp [hinl]), if_pos hhtml]
    refine ⟨?_, ?_, ?_⟩
    · have hh := Gmail.substr_ct_headers toAddr subject fromF (Gmail.ctAlt ts)
      iterate 7 apply substr_appendL
      exact hh
    · have hh : substr Gmail.ctPlainLine (Gmail.textPart (Gmail.altBoundary ts) body) :=
        Gmail.substr_joinNl_of_mem (by simp [Gmail.textPart])
      iterate 4 apply substr_appendL
      exact substr_appendR hh
    · have hh : substr Gmail.ctHtmlLine (Gmail.htmlPart (Gmail.altBoundary ts) html) :=
        Gmail.substr_joinNl_of_mem (by simp [Gmail.htmlPart])
      iterate 2 apply substr_appendL
      exact substr_appendR hh
  · intro hatts hhtml
    rw [Gmail.rawMimeMessage, if_neg (by simp [hatts]), if_neg (by simp [hatts]),
      if_neg (by simp [hatts]), if_neg (by simp [hhtml]), if_neg (by simp [hhtml])]
    refine ⟨rfl, ?_⟩
    intro b hb
    have hchars : ∀ c ∈ b.data, Gmail.isBoundaryChar c = true := by
      simp only [List.mem_cons, List.not_mem_nil, or_false] at hb
      rcases hb with rfl | rfl | rfl
      · exact Gmail.mixedBoundary_chars ts
      · exact Gmail.altBoundary_chars ts
      · exact Gmail.relatedBoundary_chars ts
    have hus : '_' ∈ b.data := by
      simp only [List.mem_cons, List.not_mem_nil, or_false] at hb
      rcases hb with rfl | rfl | rfl
      · exact Gmail.underscore_mem_mixedBoundary ts
      · exact Gmail.underscore_mem_altBoundary ts
      · exact Gmail.underscore_mem_relatedBoundary ts
    exact Gmail.boundary_not_in_plainMessage hchars hus
      (hto b hb) (hsubj b hb) (hbody b hb) (hfrom b hb)

/-- Witness for C1: concrete underscore-free inputs with no optional
parts; the builder emits the plain-text shape with no boundary
anywhere. -/
theorem createRawMessage_mime_shapes_witness :
    BoundaryFree 0 "a@b.c" ∧ BoundaryFree 0 "Hi" ∧ BoundaryFree 0 "Yo" ∧
    BoundaryFree 0 "" ∧
    (Gmail.rawMimeMessage "a@b.c" "Hi" "Yo" "" "" [] [] 0 =
      Gmail.plainMessage "a@b.c" "Hi" "Yo" "" ∧
    ∀ b ∈ [Gmail.mixedBoundary 0, Gmail.altBoundary 0, Gmail.relatedBoundary 0],
      ¬ substr b (Gmail.rawMimeMessage "a@b.c" "Hi" "Yo" "" "" [] [] 0)) := by
  have h1 : BoundaryFree 0 "a@b.c" := boundaryFree_of_no_underscore (by decide) 0
  have h2 : BoundaryFree 0 "Hi" := boundaryFree_of_no_underscore (by decide) 0
  have h3 : BoundaryFree 0 "Yo" := boundaryFree_of_no_underscore (by decide) 0
  have h4 : BoundaryFree 0 "" := boundaryFree_of_no_underscore (by decide) 0
  exact ⟨h1, h2, h3, h4,
    (createRawMessage_mime_shapes "a@b.c" "Hi" "Yo" "" "" [] [] 0
      h1 h2 h3 h4).2.2.2.2.2.2 rfl rfl⟩

/-- Claim C8 (amended): whenever an inline-image part is emitted (the
shapes with an HTML body), the part's `Content-ID` header value is the
caller-supplied content-id enclosed in angle brackets, i.e. the line
`Content-ID: <cid>` occurs in the message for every supplied image. -/
theorem createRawMessage_contentId_header
    (toAddr subject body fromF html : String)
    (atts imgs : List Gmail.Attachment) (ts : Nat) (img : Gmail.Attachment)
    (hmem : img ∈ imgs) (hhtml : html ≠ "") :
    substr ("Content-ID: <" ++ img.contentId ++ ">")
      (Gmail.rawMimeMessage toAddr subject body fromF html atts imgs ts) := by
  have hinl : imgs ≠ [] := List.ne_nil_of_mem hmem
  have h1 : substr ("Content-ID: <" ++ img.contentId ++ ">")
      (Gmail.inlineImagePart (Gmail.relatedBoundary ts) img) :=
    Gmail.substr_joinNl_of_mem (by simp [Gmail.inlineImagePart])
  have h2 : substr (Gmail.inlineImagePart (Gmail.relatedBoundary ts) img)
      (Gmail.inlineParts (Gmail.relatedBoundary ts) imgs) :=
    Gmail.substr_joinNl_of_mem (List.mem_map_of_mem _ hmem)
  have h3 := substr_trans h1 h2
  by_cases hatts : atts = []
  · rw [Gmail.rawMimeMessage, if_neg (by simp [hatts]), if_neg (by simp [hatts]),
      if_neg (by simp [hatts]), if_pos ⟨hhtml, hinl⟩]
    iterate 2 apply substr_appendL
    exact substr_appendR h3
  · rw [Gmail.rawMimeMessage, if_pos ⟨hatts, hhtml, hinl⟩]
    iterate 6 apply substr_appendL
    exact substr_appendR h3

/-- Witness for C8's amended theorem: the concrete shape-4 message carries
the bracketed Content-ID line of the single supplied image. -/
theorem createRawMessage_contentId_header_witness :
    imgW ∈ [imgW] ∧ ("<p>x</p>" : String) ≠ "" ∧
    substr ("Content-ID: <" ++ imgW.contentId ++ ">")
      (Gmail.rawMimeMessage "a@b.c" "s" "b" "" "<p>x</p>" [] [imgW] 0) :=
  ⟨by simp, by decide,
    createRawMessage_contentId_header "a@b.c" "s" "b" "" "<p>x</p>" [] [imgW] 0 imgW
      (by simp) (by decide)⟩

/-- Counterexample for C8 as stated: for the caller-supplied content-id
`img1`, the emitted header value is `<img1>` (the bracketed msg-id form),
not the bare string `img1`: the text `Content-ID: <img1>` occurs in the
message while `Content-ID: img1` occurs nowhere, so the header value does
not "exactly equal" the supplied content-id string. -/
theorem createRawMessage_contentId_counterexample :
    hasSub "Content-ID: <img1>".data
      (Gmail.rawMimeMessage "a@b.c" "s" "b" "" "<p>x</p>" [] [imgW] 0).data = true ∧
    hasSub "Content-ID: img1".data
      (Gmail.rawMimeMessage "a@b.c" "s" "b" "" "<p>x</p>" [] [imgW] 0).data = false := by
  constructor
  · decide
  · decide

/-- Counterexample for C4 as stated: in the decoded shape-2 message the
opening delimiter line occurs once per MIME part, so it is not the case
that each boundary's opening delimiter occurs exactly once. -/
theorem createRawMessage_boundary_count_counterexample :
    ¬ (countLine (strBytes ("--" ++ Gmail.mixedBoundary 0)) c4decoded = 1 ∧
       countLine (strBytes ("--" ++ Gmail.mixedBoundary 0 ++ "--")) c4decoded = 1 ∧
       countLine (strBytes ("--" ++ Gmail.altBoundary 0)) c4decoded = 1 ∧
       countLine (strBytes ("--" ++ Gmail.altBoundary 0 ++ "--")) c4decoded = 1) := by
  intro h
  exact absurd h.1 (by decide)

/-- Claim C4 (amended): in the decoded shape-2 message built from one
attachment, an HTML body and no inline images, each boundary's opening
delimiter line occurs exactly once per part it opens — twice for the mixed
boundary (the alternative wrapper and the attachment) and twice for the
alternative boundary (the text and the HTML part) — while each closing
delimiter line occurs exactly once. -/
theorem createRawMessage_boundary_count :
    countLine (strBytes ("--" ++ Gmail.mixedBoundary 0)) c4decoded = 2 ∧
    countLine (strBytes ("--" ++ Gmail.mixedBoundary 0 ++ "--")) c4decoded = 1 ∧
    countLine (strBytes ("--" ++ Gmail.altBoundary 0)) c4decoded = 2 ∧
    countLine (strBytes ("--" ++ Gmail.altBoundary 0 ++ "--")) c4decoded = 1 := by
  refine ⟨?_, ?_, ?_, ?_⟩ <;> decide

theorem find?_first {α : Type} (p : α → Bool) :
    ∀ (pre : List α) (l : α) (post : List α), (∀ x ∈ pre, p x = false) →
      p l = true → (pre ++ l :: post).find? p = some l := by
  intro pre
  induction pre with
  | nil =>
    intro l post _ hl
    simpa using List.find?_cons_of_pos post hl
  | cons x pre' ih =>
    intro l post hpre hl
    rw [List.cons_append, List.find?_cons_of_neg _ (by simp [hpre x (by simp)])]
    exact ih l post (fun y hy => hpre y (by simp [hy])) hl

/-- Claim C3 (behavior of the code at the failing input): inside a fenced
code block the HTML-escaping part of the contract holds — `<script>`
is emitted as `&lt;script&gt;` inside `<pre><code>` and never as live
markup — but the no-further-Markdown part fails: the later bold pass
still rewrites `**x**` inside the already-emitted `<code>` content into a
`<strong>` element. -/
theorem markdownToEmailHtml_codeblock_escape_bug :
    hasSub "<code><strong ".data
      (Md.markdownToEmailHtml "```\n**x**\n```" .client).1.data = true ∧
    countSub "<strong".data
      (Md.markdownToEmailHtml "```\n**x**\n```" .client).1.data = 1 ∧
    hasSub "<code>&lt;script&gt;</code>".data
      (Md.markdownToEmailHtml "```\n<script>\n```" .client).1.data = true ∧
    hasSub "<script>".data
      (Md.markdownToEmailHtml "```\n<script>\n```" .client).1.data = false := by
  refine ⟨?_, ?_, ?_, ?_⟩ <;> rfl

/-- Counterexample for C5 as stated: for the input `"> a\n\n> b"` — two
blockquote runs separated by exactly one blank line — the renderer emits
two `<blockquote>` elements, not one. -/
theorem markdownToEmailHtml_blockquote_counterexample :
    countSub "<blockquote".data
      (Md.markdownToEmailHtml "> a\n\n> b" .client).1.data = 2 := by rfl

/-- Claim C5 (amended): blockquote runs merge into one `<blockquote>`
with `<br>`-joined contents only while every separating line itself
starts with `>` (e.g. a lone `">"` line); a truly blank line ends the
run, so runs separated by a blank line yield two `<blockquote>`
elements. -/
theorem markdownToEmailHtml_blockquote_merge :
    countSub "<blockquote".data
      (Md.markdownToEmailHtml "> a\n>\n> b" .client).1.data = 1 ∧
    hasSub ">a<br>b</p></blockquote>".data
      (Md.markdownToEmailHtml "> a\n>\n> b" .client).1.data = true ∧
    countSub "<blockquote".data
      (Md.markdownToEmailHtml "> a\n\n> b" .client).1.data = 2 := by
  refine ⟨?_, ?_, ?_⟩ <;> rfl

/-- Claim C6 (behavior of the code at the failing input): the three-line
table renders one `<table>` with header cells `A`, `B`, but the dashes
separator line `|---|---|` is NOT discarded — the separator test
`^\|[\s:-]+\|$` cannot match across the inner `|` — so the body has two
data rows, the first with cells `---`, `---`, before the `1`, `2` row;
the degenerate single-line run is left as paragraph text with no
`<table>`. -/
theorem markdownToEmailHtml_table_bug :
    (Md.markdownToEmailHtml "| A | B |\n|---|---|\n| 1 | 2 |" .client).1 =
      c6TableHtml ∧
    countSub "<table".data c6TableHtml.data = 1 ∧
    hasSub ">A</th>".data c6TableHtml.data = true ∧
    hasSub ">B</th>".data c6TableHtml.data = true ∧
    countSub "<td ".data c6TableHtml.data = 4 ∧
    hasSub ">---</td>".data c6TableHtml.data = true ∧
    Md.isSeparatorRow "|---|---|".data = false ∧
    countSub "<table".data
      (Md.markdownToEmailHtml "| A | B |" .client).1.data = 0 ∧
    hasSub "| A | B |".data
      (Md.markdownToEmailHtml "| A | B |" .client).1.data = true := by
  have h0 : Md.codeBlockPassDoc "| A | B |\n|---|---|\n| 1 | 2 |".data =
      "| A | B |\n|---|---|\n| 1 | 2 |".data := by rfl
  have h1 : Md.tablePassDoc .client "| A | B |\n|---|---|\n| 1 | 2 |".data =
      c6TableHtml.data := by rfl
  have h2 : Md.h4PassDoc .client c6TableHtml.data = c6TableHtml.data := by rfl
  have h3 : Md.h3PassDoc .client c6TableHtml.data = c6TableHtml.data := by rfl
  have h4 : Md.h2PassDoc .client c6TableHtml.data = c6TableHtml.data := by rfl
  have h5 : Md.h1PassDoc .client c6TableHtml.data = c6TableHtml.data := by rfl
  have h6 : Md.boldPassDoc .client c6TableHtml.data = c6TableHtml.data := by rfl
  have h7 : Md.italicPassDoc .client c6TableHtml.data = c6TableHtml.data := by rfl
  have h8 : Md.linkPassDoc .client c6TableHtml.data = c6TableHtml.data := by rfl
  have h9 : Md.codeSpanPassDoc .client c6TableHtml.data = c6TableHtml.data := by rfl
  have h10 : Md.hrPassDoc .client c6TableHtml.data = c6TableHtml.data := by rfl
  have h11 : Md.bqPassDoc .client c6TableHtml.data = c6TableHtml.data := by rfl
  have h12 : Md.ulPassDoc c6TableHtml.data = c6TableHtml.data := by rfl
  have h13 : Md.olPassDoc c6TableHtml.data = c6TableHtml.data := by rfl
  have h14 : Md.paragraphPass c6TableHtml.data = c6TableHtml.data := by rfl
  have hfin : Md.pipeline .client "| A | B |\n|---|---|\n| 1 | 2 |".data =
      c6TableHtml.data := by
    unfold Md.pipeline
    rw [h0, h1, h2, h3, h4, h5, h6, h7, h8, h9, h10, h11, h12, h13, h14]
  have he : (Md.markdownToEmailHtml "| A | B |\n|---|---|\n| 1 | 2 |" .client).1 =
      c6TableHtml := by
    show String.mk (Md.pipeline .client "| A | B |\n|---|---|\n| 1 | 2 |".data) = _
    rw [hfin]
  refine ⟨he, by rfl, by rfl, by rfl, by rfl, by rfl, by rfl, ?_, ?_⟩
  · rfl
  · rfl

/-- Claim C7: the returned title is the text after `"# "` of the first
line matching the level-1 heading pattern anywhere in the document, and
the literal `"Report"` when no line matches. -/
theorem markdownToEmailHtml_title (md : String) (st : Md.EmailStyle) :
    (∀ pre l post, Md.splitLines md.data = pre ++ l :: post →
      (∀ l' ∈ pre, Md.isH1Line l' = false) → Md.isH1Line l = true →
      (Md.markdownToEmailHtml md st).2 = String.mk (l.drop 2)) ∧
    ((∀ l ∈ Md.splitLines md.data, Md.isH1Line l = false) →
      (Md.markdownToEmailHtml md st).2 = "Report") := by
  have he : (Md.markdownToEmailHtml md st).2 = Md.extractTitle md.data := rfl
  constructor
  · intro pre l post hsplit hpre hl
    rw [he]
    unfold Md.extractTitle
    rw [show Md.splitLines md.data = pre ++ l :: post from hsplit,
      find?_first Md.isH1Line pre l post hpre hl]
  · intro hall
    rw [he]
    unfold Md.extractTitle
    rw [List.find?_eq_none.mpr (fun x hx => by simp [hall x hx])]

/-- Witness for C7 at the documented inputs: `# My Title` + body line
gives exactly `My Title`; an input with no level-1 heading gives
`Report`. -/
theorem markdownToEmailHtml_title_witness :
    Md.splitLines ("# My Title\nbody" : String).data =
      [] ++ "# My Title".data :: ["body".data] ∧
    Md.isH1Line "# My Title".data = true ∧
    (Md.markdownToEmailHtml "# My Title\nbody" .client).2 = "My Title" ∧
    (Md.markdownToEmailHtml "no heading" .client).2 = "Report" := by
  refine ⟨by decide, by decide, ?_, ?_⟩
  · exact (markdownToEmailHtml_title "# My Title\nbody" .client).1
      [] "# My Title".data ["body".data] (by decide)
      (by intro l' hl'; cases hl') (by decide)
  · exact (markdownToEmailHtml_title "no heading" .client).2
      (by decide)
